import Mathlib

set_option linter.unusedVariables false

/-!
Shallow embedding of the Kvitlach game-server core: the hand evaluator
(backend/src/turn.ts), the pure round engine (backend/src/round.ts) and
the stateful game store (backend/src/store.ts).

Conventions of the embedding:
* JS exceptions are modelled with `Option` (evaluator level, where the
  only throw is `reduce` on an empty array) and `Except String`
  (engine and store level).  The store mutates the room record in
  place, so a store command that throws after mutating returns the
  mutated room inside the error: store operations live in
  `Except (String × Store) Store`.
* Chip amounts are `Int` (the banker's `bet` is overwritten with a
  signed net); card values are `Nat`.
* `Card.rosier` stands for `attributes.type == "rosier"` (the check
  `Object.values(card.attributes).includes("rosier")` in turn.ts is
  equivalent to it, since the other attribute fields are a number
  array and a boolean); `Card.eleveroonIgnored` is the tag added by
  `handleHit`.
* Timer fields, room/round identifiers and wall-clock fields
  (`initiatedAt`, `requestedAt`) are elided: no claim mentions them,
  and the store is projected to a single room with its single active
  round (all the claims are per-room).
-/

inductive PlayerType
  | admin
  | player
  deriving DecidableEq, Repr

inductive TurnState
  | pending
  | lost
  | won
  | standby
  | skipped
  deriving DecidableEq, Repr

inductive RoundPhase
  | playing
  | final
  | terminate
  deriving DecidableEq, Repr

inductive BankStage
  | player
  | banker
  | decision
  deriving DecidableEq, Repr

structure Card where
  name : String
  values : List Nat
  rosier : Bool
  eleveroonIgnored : Bool
  deriving DecidableEq, Repr

structure Player where
  id : String
  type : PlayerType
  deriving DecidableEq, Repr

structure Turn where
  player : Player
  state : TurnState
  cards : List Card
  bet : Int
  bankRequest : Bool
  settledBet : Option Int
  settledNet : Option Int
  deriving DecidableEq, Repr

structure BankLock where
  playerId : String
  stage : BankStage
  exposure : Int
  throughIndex : Nat
  deriving DecidableEq, Repr

structure Round where
  deck : List Card
  turns : List Turn
  state : RoundPhase
  bankLock : Option BankLock
  deriving DecidableEq, Repr

structure Balance where
  amount : Int
  payer : String
  payee : String
  deriving DecidableEq, Repr

structure BuyInRequest where
  playerId : String
  amount : Int
  deriving DecidableEq, Repr

structure RoomState where
  buyIn : Int
  bankerBuyIn : Int
  wallets : List (String × Int)
  players : List Player
  balances : List Balance
  completedRounds : Nat
  buyInRequests : List BuyInRequest
  password : Option String
  deriving DecidableEq, Repr

structure Store where
  room : RoomState
  round : Option Round
  deriving DecidableEq, Repr

/-! ## Hand evaluator (turn.ts) -/

/-- turn.ts `getCombinations`: all pairwise sums, `sumsA`-major order. -/
def getCombinations (sumsA sumsB : List Nat) : List Nat :=
  sumsA.flatMap (fun a => sumsB.map (fun b => a + b))

/-- turn.ts `calcSums`: `values.reduce((acc, valueSet) =>
getCombinations(valueSet, acc).flat())`.  `reduce` without an initial
accumulator throws a `TypeError` on an empty array, modelled as `none`;
`.flat()` on an array of numbers is the identity. -/
def calcSums (values : List (List Nat)) : Option (List Nat) :=
  match values with
  | [] => none
  | v :: rest => some (rest.foldl (fun acc valueSet => getCombinations valueSet acc) v)

/-- turn.ts `getSums`. -/
def getSums (cards : List Card) : Option (List Nat) :=
  calcSums (cards.map (·.values))

/-- turn.ts `rosier`: exactly two cards, both tagged rosier. -/
def rosierHand (cards : List Card) : Bool :=
  cards.length == 2 && cards.all (·.rosier)

/-- turn.ts `calcState`. -/
def calcState (cards : List Card) : Option TurnState :=
  match getSums cards with
  | none => none
  | some sums =>
    if sums.contains 21 then some .won
    else if rosierHand cards then some .won
    else if sums.all (fun s => decide (21 < s)) then some .lost
    else some .pending

/-- turn.ts `initializeTurns`: deal one card per player off the top of
the deck; fails when the deck runs out. -/
def initializeTurns (players : List Player) (deck : List Card) :
    Except String (List Turn × List Card) :=
  match players with
  | [] => .ok ([], deck)
  | p :: ps =>
    match deck with
    | [] => .error "Deck exhausted during initialization"
    | c :: rest =>
      match initializeTurns ps rest with
      | .error e => .error e
      | .ok (ts, d) => .ok (⟨p, .pending, [c], 0, false, none, none⟩ :: ts, d)

/-! ## Round engine (round.ts) -/

/-- round.ts `isRosierPair` (semantically identical to turn.ts `rosier`). -/
def isRosierPair (cards : List Card) : Bool :=
  cards.length == 2 && cards.all (·.rosier)

/-- Descending insertion, modelling `Array.sort((a, b) => b - a)`. -/
def insertDesc (x : Nat) : List Nat → List Nat
  | [] => [x]
  | y :: ys => if y ≤ x then x :: y :: ys else y :: insertDesc x ys

/-- Descending sort, modelling `Array.sort((a, b) => b - a)`. -/
def sortDesc (l : List Nat) : List Nat := l.foldr insertDesc []

/-- round.ts `winningNumber`: 21 for a rosier pair, otherwise the
totals `≤ 21` sorted descending and the first taken (`undefined`, i.e.
inner `none`, when every total busts).  The outer `Option` is the
`reduce`-on-empty exception from `getSums`. -/
def winningNumber (cards : List Card) : Option (Option Nat) :=
  if isRosierPair cards then some (some 21)
  else
    match getSums cards with
    | none => none
    | some sums => some ((sortDesc (sums.filter (fun s => decide (s ≤ 21)))).head?)

/-- round.ts `playerWon`: higher total wins, ties go to the banker;
busted player loses, busted banker loses to any live player. -/
def playerWon (adminTurn playerTurn : Turn) : Option Bool :=
  match winningNumber playerTurn.cards with
  | none => none
  | some playerTotal =>
    match winningNumber adminTurn.cards with
    | none => none
    | some adminTotal =>
      match playerTotal with
      | none => some false
      | some p =>
        match adminTotal with
        | none => some true
        | some a => some (decide (a < p))

/-- `turns.findIndex(t => t.player.id === playerId)` together with the
element found. -/
def findTurn? (turns : List Turn) (playerId : String) : Option (Nat × Turn) :=
  match turns.findIdx? (fun t => t.player.id == playerId) with
  | none => none
  | some i => (turns[i]?).map (fun t => (i, t))

/-- round.ts `getGameState`: the non-banker turns still pending. -/
def pendingNonBanker (turns : List Turn) : List Turn :=
  turns.filter (fun t => t.state == .pending && t.player.type != .admin)

/-- round.ts `getGameState`: the banker's turn (first admin turn). -/
def adminTurn? (turns : List Turn) : Option Turn :=
  turns.find? (fun t => t.player.type == .admin)

/-- round.ts `getGameState`: the non-banker turns already resolved. -/
def resolvedNonBanker (turns : List Turn) : List Turn :=
  turns.filter (fun t => t.player.type != .admin && t.state != .pending)

/-- round.ts `getGameState`. -/
def getGameState (turns : List Turn) : RoundPhase :=
  match adminTurn? turns with
  | none => .terminate
  | some a =>
    if (pendingNonBanker turns).isEmpty && !(resolvedNonBanker turns).isEmpty
        && a.state == .pending then .final
    else if (pendingNonBanker turns).isEmpty then .terminate
    else .playing

/-- One step of the `playerTurns.forEach` loop in round.ts
`calculateEndState`: recompute the classification from the cards, a
`standby` turn is compared against the banker, and the recomputed
classification overrides. -/
def resolveT? (adminTurn turn : Turn) : Option Turn :=
  match calcState turn.cards with
  | none => none
  | some actualState =>
    match
      (if turn.state == .standby then
        (playerWon adminTurn turn).map (fun w => if w then TurnState.won else TurnState.lost)
      else some turn.state) with
    | none => none
    | some resolved0 =>
      some { turn with
        state :=
          if actualState == .lost then TurnState.lost
          else if actualState == .won then TurnState.won
          else resolved0 }

/-- JS `Map.set` on an association list: overwrite the entry in place,
else append (a JS `Map` holds one entry per key). -/
def mapSet : List (String × Turn) → String → Turn → List (String × Turn)
  | [], k, v => [(k, v)]
  | p :: ps, k, v => if p.1 == k then (k, v) :: ps else p :: mapSet ps k v

/-- JS `Map.get` on an association list. -/
def mapGet? (m : List (String × Turn)) (k : String) : Option Turn :=
  (m.find? (fun p => p.1 == k)).map (·.2)

/-- The `playerTurns.forEach` loop of round.ts `calculateEndState`:
accumulates the banker's balance and the resolved-players map. -/
def endStateLoop (adminTurn : Turn) :
    List Turn → Int → List (String × Turn) → Option (Int × List (String × Turn))
  | [], bal, res => some (bal, res)
  | turn :: rest, bal, res =>
    match resolveT? adminTurn turn with
    | none => none
    | some rt =>
      endStateLoop adminTurn rest
        (if rt.state == .won then bal - turn.bet
         else if rt.state == .lost then bal + turn.bet else bal)
        (mapSet res turn.player.id rt)

/-- round.ts `calculateEndState`. -/
def calculateEndState (turns : List Turn) : Option (List Turn) :=
  match adminTurn? turns with
  | none => some turns
  | some adminTurn =>
    match endStateLoop adminTurn (turns.filter (fun t => t.player.type != .admin)) 0 [] with
    | none => none
    | some (adminBalance, resolvedPlayers) =>
      match calcState adminTurn.cards with
      | none => none
      | some adminActualState =>
        let adminState :=
          if adminActualState == .lost then TurnState.lost
          else if adminActualState == .won then TurnState.won
          else if adminBalance < 0 then TurnState.lost
          else TurnState.standby
        let adminResolved := { adminTurn with state := adminState, bet := adminBalance }
        some (turns.map (fun turn =>
          if turn.player.type == .admin then adminResolved
          else (mapGet? resolvedPlayers turn.player.id).getD turn))

/-- round.ts `calculateBalances`: one ledger entry per resolved
non-banker (skipped excluded); a lost turn pays the banker, every other
turn is paid by the banker. -/
def calculateBalances (turns : List Turn) : List Balance :=
  match adminTurn? turns with
  | none => []
  | some adminTurn =>
    (turns.filter (fun t => t.player.type != .admin && t.state != .skipped)).map
      (fun turn =>
        if turn.state == .lost then ⟨turn.bet, turn.player.id, adminTurn.player.id⟩
        else ⟨turn.bet, adminTurn.player.id, turn.player.id⟩)

/-- round.ts `advanceState` (the `terminateDelay` hint only feeds a
timer and is elided). -/
def advanceState (state : Round) : Except String Round :=
  match getGameState state.turns with
  | .terminate =>
    match calculateEndState state.turns with
    | none => .error "reduce_of_empty_array"
    | some turns => .ok { state with state := .terminate, turns := turns }
  | .final =>
    if state.turns.any (fun t => t.player.type != .admin && t.state == .standby) then
      .ok { state with state := .final }
    else
      match calculateEndState state.turns with
      | none => .error "reduce_of_empty_array"
      | some turns => .ok { state with state := .terminate, turns := turns }
  | .playing => .ok { state with state := .playing }

/-- round.ts `handleBet`. -/
def handleBet (state : Round) (playerId : String) (amount : Int) : Except String Round :=
  match findTurn? state.turns playerId with
  | none => .error "turn_not_found"
  | some (turnIndex, turn) =>
    if state.state == .terminate then .error "round_terminated"
    else if amount ≤ 0 then .error "invalid_bet"
    else
      match state.deck with
      | [] => .error "deck_empty"
      | pickedCard :: remainingDeck =>
        match calcState (turn.cards ++ [pickedCard]) with
        | none => .error "reduce_of_empty_array"
        | some st =>
          let updatedTurn : Turn :=
            { turn with
              bet := turn.bet + amount
              cards := turn.cards ++ [pickedCard]
              state := st }
          advanceState
            { state with turns := state.turns.set turnIndex updatedTurn, deck := remainingDeck }

/-- round.ts `handleHit`: draw without staking; eleveroon tagging for a
busting 11-card at a prior best total of exactly 11 (always active for
the banker); Blatt suppression for a non-banker with no wager. -/
def handleHit (state : Round) (playerId : String) (eleveroon : Bool) : Except String Round :=
  match findTurn? state.turns playerId with
  | none => .error "turn_not_found"
  | some (turnIndex, turn) =>
    if state.state == .terminate then .error "round_terminated"
    else
      match state.deck with
      | [] => .error "deck_empty"
      | pickedCard :: remainingDeck =>
        match winningNumber turn.cards with
        | none => .error "reduce_of_empty_array"
        | some priorTotal =>
          let eleveroonActive := eleveroon || turn.player.type == .admin
          let isElevenCard := pickedCard.values.contains 11
          match calcState (turn.cards ++ [pickedCard]) with
          | none => .error "reduce_of_empty_array"
          | some probeState =>
            let cardWouldBust := probeState == .lost
            let shouldIgnoreEleven :=
              eleveroonActive && isElevenCard && priorTotal == some 11 && cardWouldBust
            let effectiveCard :=
              if shouldIgnoreEleven then { pickedCard with eleveroonIgnored := true }
              else pickedCard
            let cards := turn.cards ++ [effectiveCard]
            match calcState cards with
            | none => .error "reduce_of_empty_array"
            | some nextState0 =>
              let finish : TurnState → Except String Round := fun nextState =>
                advanceState
                  { state with
                    turns := state.turns.set turnIndex { turn with cards := cards, state := nextState }
                    deck := remainingDeck }
              if turn.player.type != .admin && turn.bet == 0 then
                match winningNumber cards with
                | none => .error "reduce_of_empty_array"
                | some bestTotal =>
                  match bestTotal with
                  | none => finish .pending
                  | some b =>
                    if nextState0 == .pending && 20 ≤ b then finish .standby
                    else finish nextState0
              else finish nextState0

/-- round.ts `handleStand` (no pending-state guard in the source). -/
def handleStand (state : Round) (playerId : String) : Except String Round :=
  match findTurn? state.turns playerId with
  | none => .error "turn_not_found"
  | some (turnIndex, turn) =>
    let isPush := turn.player.type != .admin && turn.bet == 0
    let updatedTurn : Turn :=
      { turn with
        state := if isPush then .won else .standby
        settledBet := if isPush then some 0 else turn.settledBet }
    advanceState { state with turns := state.turns.set turnIndex updatedTurn }

/-- round.ts `handleSkip`. -/
def handleSkip (state : Round) (playerId : String) : Except String Round :=
  match findTurn? state.turns playerId with
  | none => .error "turn_not_found"
  | some (turnIndex, turn) =>
    advanceState { state with turns := state.turns.set turnIndex { turn with state := .skipped } }

/-! ## Game store (store.ts) -/

/-- `room.wallets[k]` as an association-list entry. -/
def lookupWallet? (w : List (String × Int)) (k : String) : Option Int :=
  (w.find? (fun p => p.1 == k)).map (·.2)

/-- `room.wallets[k] ?? 0`. -/
def wlookup (w : List (String × Int)) (k : String) : Int :=
  (lookupWallet? w k).getD 0

/-- `room.wallets[k] = v`: overwrite an existing entry, else append. -/
def wset (w : List (String × Int)) (k : String) (v : Int) : List (String × Int) :=
  if w.any (fun p => p.1 == k) then w.map (fun p => if p.1 == k then (k, v) else p)
  else w ++ [(k, v)]

/-- `balances.forEach` in `finalizeRound` / `settleBankOutcome`:
`wallets[payer] -= amount; wallets[payee] += amount` (missing keys read
as 0). -/
def applyBalances (wallets : List (String × Int)) (balances : List Balance) :
    List (String × Int) :=
  balances.foldl
    (fun w b => wset (wset w b.payer (wlookup w b.payer - b.amount)) b.payee
      (wlookup (wset w b.payer (wlookup w b.payer - b.amount)) b.payee + b.amount))
    wallets

/-- store.ts `isAdmin`. -/
def isAdmin (room : RoomState) (playerId : String) : Bool :=
  room.players.any (fun p => p.id == playerId && p.type == .admin)

/-- store.ts `getBankerId`. -/
def getBankerId (round : Round) : Option String :=
  (round.turns.find? (fun t => t.player.type == .admin)).map (·.player.id)

/-- store.ts `computeBankWindow`: the banker's wallet minus the live
stakes of the earlier-seated non-banker turns, floored at 0; also the
bettor's seat index. -/
def computeBankWindow (round : Round) (room : RoomState) (playerId : String) :
    Except String (Int × Nat) :=
  match round.turns.find? (fun t => t.player.type == .admin) with
  | none => .error "banker_missing"
  | some banker =>
    let bankerWallet := wlookup room.wallets banker.player.id
    match round.turns.findIdx? (fun t => t.player.id == playerId) with
    | none => .error "turn_not_found"
    | some playerIndex =>
      let outstanding :=
        ((round.turns.take playerIndex).filter
          (fun t => t.player.type != .admin && t.state != .lost && t.state != .skipped)).foldl
          (fun s t => s + t.bet) 0
      .ok (max (bankerWallet - outstanding) 0, playerIndex)

/-- store.ts `settleBankOutcome`, the wallet/ledger application: apply
the interim balances, mirror the banker's wallet into `bankerBuyIn`
(`?? bankerBuyIn` when the banker has no wallet entry) and prepend the
batch to the ledger. -/
def settleApplyRoom (room : RoomState) (resolved : List Turn) (bankerId : String) :
    RoomState :=
  let balances := calculateBalances resolved
  let wallets := applyBalances room.wallets balances
  { room with
    wallets := wallets
    bankerBuyIn := (lookupWallet? wallets bankerId).getD room.bankerBuyIn
    balances := if balances.isEmpty then room.balances else balances ++ room.balances }

/-- store.ts `settleBankOutcome`, the turn rewrite: participating seats
(index ≤ `throughIndex`) take the resolved state, move their stake to
`settledBet` and zero `bet`; the banker's turn records the signed net in
`settledNet` and zeroes `bet`. -/
def settleTurns (turns : List Turn) (resolvedById : List (String × Turn))
    (bankerId : String) (lock : BankLock) : List Turn :=
  turns.enum.map (fun p =>
    let idx := p.1
    let turn := p.2
    if turn.player.type == .admin then
      if turn.player.id != bankerId then turn
      else
        match mapGet? resolvedById bankerId with
        | none => { turn with bet := 0, settledNet := none }
        | some outcome =>
          { turn with state := outcome.state, bet := 0, settledNet := some outcome.bet }
    else if lock.throughIndex < idx then turn
    else
      match mapGet? resolvedById turn.player.id with
      | none => turn
      | some outcome =>
        { turn with
          state := outcome.state
          settledBet := some outcome.bet
          bet := 0
          bankRequest := if outcome.player.id == lock.playerId then true else turn.bankRequest })

/-- store.ts `settleBankOutcome`: resolve the seats up to the lock's
`throughIndex` against the banker's final hand, apply balances to the
room immediately, then either resume the round with a fresh banker card
(wallet still positive) or fall to the `decision` stage.  The source
mutates the room in place, so the `deck_empty` throw carries the
already-settled room. -/
def settleBankOutcome (round : Round) (room : RoomState) (lock : BankLock)
    (bankerTurn : Turn) : Except (String × RoomState) (Round × RoomState) :=
  let bankerId := bankerTurn.player.id
  let involvedEntries :=
    round.turns.enum.filter (fun p => p.2.player.type != .admin && p.1 ≤ lock.throughIndex)
  if involvedEntries.isEmpty then .ok ({ round with bankLock := none }, room)
  else
    match calculateEndState (involvedEntries.map (·.2) ++ [bankerTurn]) with
    | none => .error ("reduce_of_empty_array", room)
    | some resolved =>
      match resolved.find? (fun t => t.player.type == .admin) with
      | none => .ok ({ round with bankLock := none }, room)
      | some _resolvedBanker =>
        let room1 := settleApplyRoom room resolved bankerId
        let resolvedById := resolved.foldl (fun m t => mapSet m t.player.id t) []
        let round1 := { round with turns := settleTurns round.turns resolvedById bankerId lock }
        let bankerWallet := wlookup room1.wallets bankerId
        if bankerWallet ≤ 0 then
          .ok ({ round1 with bankLock := some { lock with stage := .decision } }, room1)
        else
          match round1.turns.findIdx? (fun t => t.player.id == bankerId) with
          | none => .ok ({ round1 with bankLock := none }, room1)
          | some bankerIndex =>
            match round1.deck with
            | [] => .error ("deck_empty", room1)
            | nextCard :: nextDeck =>
              .ok ({ round1 with
                     turns := round1.turns.enum.map (fun p =>
                       if p.1 == bankerIndex then
                         { p.2 with
                           cards := [nextCard], state := .pending, bet := 0
                           bankRequest := false, settledNet := none }
                       else p.2)
                     deck := nextDeck
                     bankLock := none }, room1)

/-- store.ts `processBankLock`: advance the BANK! sub-state machine
after an engine transition. -/
def processBankLock (round : Round) (room : RoomState) :
    Except (String × RoomState) (Round × RoomState) :=
  match round.bankLock with
  | none => .ok (round, room)
  | some lock =>
    match round.turns[lock.throughIndex]? with
    | none => .ok ({ round with bankLock := none }, room)
    | some playerTurn =>
      if playerTurn.player.id != lock.playerId then .ok ({ round with bankLock := none }, room)
      else if lock.stage == .player then
        if playerTurn.state == .lost then
          .ok ({ round with
                 bankLock := none
                 turns := round.turns.map (fun t =>
                   if t.player.id == lock.playerId then { t with bankRequest := false } else t) },
               room)
        else if playerTurn.state != .pending then
          .ok ({ round with bankLock := some { lock with stage := .banker } }, room)
        else .ok (round, room)
      else if lock.stage == .banker then
        match getBankerId round with
        | none => .ok ({ round with bankLock := none }, room)
        | some bankerId =>
          match round.turns.find? (fun t => t.player.id == bankerId) with
          | none => .ok ({ round with bankLock := none }, room)
          | some bankerTurn =>
            if bankerTurn.state == .pending then .ok (round, room)
            else settleBankOutcome round room lock bankerTurn
      else .ok (round, room)

/-- The bank-lock gating of store.ts `applyBet`. -/
def betLockError (lock? : Option BankLock) (playerId : String) : Option String :=
  match lock? with
  | none => none
  | some lock =>
    if lock.stage == .player && lock.playerId != playerId then some "bank_locked"
    else if lock.stage == .banker then some "bank_locked"
    else if lock.stage == .decision then some "banker_deciding"
    else none

/-- The bank-lock gating of store.ts `applyHit` / `applyStand`. -/
def hitLockError (round : Round) (playerId : String) : Option String :=
  match round.bankLock with
  | none => none
  | some lock =>
    if lock.stage == .player && lock.playerId != playerId then some "bank_locked"
    else if lock.stage == .banker then
      match getBankerId round with
      | some bankerId => if bankerId != playerId then some "bank_locked" else none
      | none => none
    else if lock.stage == .decision then some "banker_deciding"
    else none

/-- The bank-lock gating of store.ts `applySkip` (skip is always
forbidden while the lock is in the `player` stage). -/
def skipLockError (round : Round) (playerId : String) : Option String :=
  match round.bankLock with
  | none => none
  | some lock =>
    if lock.stage == .player then some "bank_locked"
    else if lock.stage == .banker then
      match getBankerId round with
      | some bankerId => if bankerId != playerId then some "bank_locked" else none
      | none => none
    else if lock.stage == .decision then some "banker_deciding"
    else none

/-- store.ts `applyBet`: wallet check, bank window, engine bet, BANK!
lock opening and post-processing.  On error the (unchanged) store is
returned inside the error. -/
def applyBetS (store : Store) (playerId : String) (amount : Int) (bank : Bool) :
    Except (String × Store) Store :=
  match store.round with
  | none => .error ("round_not_found", store)
  | some round =>
    if amount ≤ 0 then .error ("invalid_bet", store)
    else
      match round.turns.find? (fun t => t.player.id == playerId) with
      | none => .error ("turn_not_found", store)
      | some playerTurn =>
        match betLockError round.bankLock playerId with
        | some e => .error (e, store)
        | none =>
          let wallet := wlookup store.room.wallets playerId
          let newBet := playerTurn.bet + amount
          if wallet < newBet then .error ("insufficient_funds", store)
          else
            match computeBankWindow round store.room playerId with
            | .error e => .error (e, store)
            | .ok (available, playerIndex) =>
              if available ≤ 0 then .error ("bank_empty", store)
              else if available < newBet then
                .error ("bank_limit:" ++ toString available, store)
              else
                match handleBet round playerId amount with
                | .error e => .error (e, store)
                | .ok updated =>
                  let shouldBank := bank || newBet == available
                  if shouldBank && newBet != available then
                    .error ("invalid_bank_amount", store)
                  else
                    let updated1 :=
                      if shouldBank then
                        { updated with
                          bankLock := some ⟨playerId, .player, available, playerIndex⟩
                          turns := updated.turns.map (fun t =>
                            if t.player.id == playerId then { t with bankRequest := true } else t) }
                      else
                        match round.bankLock with
                        | some lock =>
                          if lock.playerId == playerId then { updated with bankLock := some lock }
                          else updated
                        | none => updated
                    match processBankLock updated1 store.room with
                    | .error (e, room1) => .error (e, { store with room := room1 })
                    | .ok (round1, room1) => .ok ⟨room1, some round1⟩

/-- store.ts `applyHit`. -/
def applyHitS (store : Store) (playerId : String) (eleveroon : Bool) :
    Except (String × Store) Store :=
  match store.round with
  | none => .error ("round_not_found", store)
  | some round =>
    match hitLockError round playerId with
    | some e => .error (e, store)
    | none =>
      match handleHit round playerId eleveroon with
      | .error e => .error (e, store)
      | .ok updated =>
        match processBankLock updated store.room with
        | .error (e, room1) => .error (e, { store with room := room1 })
        | .ok (round1, room1) => .ok ⟨room1, some round1⟩

/-- store.ts `applyStand`. -/
def applyStandS (store : Store) (playerId : String) : Except (String × Store) Store :=
  match store.round with
  | none => .error ("round_not_found", store)
  | some round =>
    match hitLockError round playerId with
    | some e => .error (e, store)
    | none =>
      match handleStand round playerId with
      | .error e => .error (e, store)
      | .ok updated =>
        match processBankLock updated store.room with
        | .error (e, room1) => .error (e, { store with room := room1 })
        | .ok (round1, room1) => .ok ⟨room1, some round1⟩

/-- store.ts `applySkip`. -/
def applySkipS (store : Store) (playerId : String) : Except (String × Store) Store :=
  match store.round with
  | none => .error ("round_not_found", store)
  | some round =>
    match skipLockError round playerId with
    | some e => .error (e, store)
    | none =>
      match handleSkip round playerId with
      | .error e => .error (e, store)
      | .ok updated =>
        match processBankLock updated store.room with
        | .error (e, room1) => .error (e, { store with room := room1 })
        | .ok (round1, room1) => .ok ⟨room1, some round1⟩

/-- store.ts `adjustPlayerWallet` (name/note sanitization and the audit
log are elided). -/
def adjustPlayerWalletS (store : Store) (adminId targetPlayerId : String) (amount : Int) :
    Except (String × Store) Store :=
  if !(isAdmin store.room adminId) then .error ("forbidden", store)
  else if amount == 0 then .error ("invalid_bank_amount", store)
  else
    match lookupWallet? store.room.wallets targetPlayerId with
    | none => .error ("player_not_found", store)
    | some current =>
      if current + amount < 0 then .error ("insufficient_bank", store)
      else
        .ok { store with
              room := { store.room with
                        wallets := wset store.room.wallets targetPlayerId (current + amount) } }

/-- store.ts `approveBuyIn`. -/
def approveBuyInS (store : Store) (adminId targetPlayerId : String) :
    Except (String × Store) Store :=
  if !(isAdmin store.room adminId) then .error ("forbidden", store)
  else
    match store.room.buyInRequests.find? (fun r => r.playerId == targetPlayerId) with
    | none => .error ("request_not_found", store)
    | some request =>
      .ok { store with
            room := { store.room with
                      wallets := wset store.room.wallets targetPlayerId
                        (wlookup store.room.wallets targetPlayerId + request.amount)
                      buyInRequests := store.room.buyInRequests.filter
                        (fun r => r.playerId != targetPlayerId) } }

/-- store.ts `joinRoom`: password check, append the player, seed the
wallet with the room's buy-in.  The fresh `uuid()` is passed in as
`newPlayerId`; the mid-round waiting list and session issuing are
elided. -/
def joinRoomS (store : Store) (newPlayerId : String) (password : Option String) :
    Except (String × Store) Store :=
  match store.room.password with
  | some pw =>
    if password != some pw then .error ("invalid_password", store)
    else
      .ok { store with
            room := { store.room with
                      players := store.room.players ++ [⟨newPlayerId, .player⟩]
                      wallets := wset store.room.wallets newPlayerId store.room.buyIn } }
  | none =>
    .ok { store with
          room := { store.room with
                    players := store.room.players ++ [⟨newPlayerId, .player⟩]
                    wallets := wset store.room.wallets newPlayerId store.room.buyIn } }

/-- store.ts `topUpBanker`: signed delta on the banker's wallet, and
when the active round's bank lock is in the `decision` stage and the
new wallet is positive, resume the round with a fresh banker card.  The
source mutates the wallet before touching the deck, so the `deck_empty`
throw carries the already-topped-up room (amounts are integers, so
`Math.round` is the identity). -/
def topUpBankerS (store : Store) (adminId : String) (amount : Int) :
    Except (String × Store) Store :=
  if !(isAdmin store.room adminId) then .error ("forbidden", store)
  else if amount == 0 then .error ("invalid_payload", store)
  else
    let wallet := wlookup store.room.wallets adminId
    let nextWallet := wallet + amount
    if nextWallet < 0 then .error ("insufficient_bank", store)
    else
      let room1 :=
        { store.room with
          wallets := wset store.room.wallets adminId nextWallet
          bankerBuyIn := nextWallet }
      match store.round with
      | none => .ok ⟨room1, none⟩
      | some roundCtx =>
        match roundCtx.bankLock with
        | some lock =>
          if lock.stage == .decision then
            match roundCtx.turns.findIdx? (fun t => t.player.id == adminId) with
            | some bankerIndex =>
              if 0 < nextWallet then
                match roundCtx.deck with
                | [] => .error ("deck_empty", ⟨room1, some roundCtx⟩)
                | nextCard :: rest =>
                  .ok ⟨room1, some
                        { roundCtx with
                          turns := roundCtx.turns.enum.map (fun p =>
                            if p.1 == bankerIndex then
                              { p.2 with
                                cards := [nextCard], state := .pending, bet := 0
                                bankRequest := false, settledNet := none }
                            else p.2)
                          deck := rest
                          bankLock := none }⟩
              else .ok ⟨room1, some roundCtx⟩
            | none => .ok ⟨room1, some roundCtx⟩
          else .ok ⟨room1, some roundCtx⟩
        | none => .ok ⟨room1, some roundCtx⟩

/-- store.ts `finalizeRound`: fold the terminal round's balances into
the wallets, prepend them to the ledger, bump `completedRounds` and
delete the round. -/
def finalizeRoundS (store : Store) : Store × List Balance :=
  match store.round with
  | none => (store, [])
  | some round =>
    let balances := calculateBalances round.turns
    (⟨{ store.room with
        balances := balances ++ store.room.balances
        completedRounds := store.room.completedRounds + 1
        wallets := applyBalances store.room.wallets balances }, none⟩, balances)

/-! ## Concrete fixtures -/

instance {ε α : Type} [DecidableEq ε] [DecidableEq α] : DecidableEq (Except ε α) := fun x y =>
  match x, y with
  | .error e, .error f =>
    if h : e = f then .isTrue (by rw [h]) else .isFalse (by intro hc; injection hc; exact h ‹_›)
  | .error _, .ok _ => .isFalse (by intro hc; exact Except.noConfusion hc)
  | .ok _, .error _ => .isFalse (by intro hc; exact Except.noConfusion hc)
  | .ok a, .ok b =>
    if h : a = b then .isTrue (by rw [h]) else .isFalse (by intro hc; injection hc; exact h ‹_›)

def cardFive : Card := ⟨"5", [5], false, false⟩

def cardSix : Card := ⟨"6", [6], false, false⟩

def cardNine : Card := ⟨"9", [9], false, false⟩

def cardTen : Card := ⟨"10", [10], false, false⟩

def cardEleven : Card := ⟨"11", [11], true, false⟩

def cardTwelve : Card := ⟨"12", [12, 9, 10], false, false⟩

def taggedEleven : Card := ⟨"11", [11], true, true⟩

def bankerP : Player := ⟨"bk", .admin⟩

def playerOne : Player := ⟨"p1", .player⟩

def playerTwo : Player := ⟨"p2", .player⟩

/-- Wallet non-negativity, the invariant of claim C1. -/
def walletsNonneg (w : List (String × Int)) : Prop := ∀ p ∈ w, 0 ≤ p.2

instance (w : List (String × Int)) : Decidable (walletsNonneg w) := by
  unfold walletsNonneg; infer_instance

/-- Sum of the bets of the non-banker turns that ended `won`. -/
def sumBetsWonNB (ts : List Turn) : Int :=
  ((ts.filter (fun t => t.player.type != .admin && t.state == .won)).map (·.bet)).sum

/-- Sum of the bets of the non-banker turns that ended `lost`. -/
def sumBetsLostNB (ts : List Turn) : Int :=
  ((ts.filter (fun t => t.player.type != .admin && t.state == .lost)).map (·.bet)).sum

/-! ## Counterexample / failing-input fixtures -/

def c1Room : RoomState :=
  ⟨100, 100, [("bk", 100), ("p1", 100)], [playerOne, bankerP], [], 0, [], none⟩

def c1Round : Round :=
  ⟨[cardFive],
   [⟨playerOne, .pending, [cardFive], 0, false, none, none⟩,
    ⟨bankerP, .pending, [cardTen], 0, false, none, none⟩],
   .playing, none⟩

def c1Store : Store := ⟨c1Room, some c1Round⟩

def c1Store1 : Store := (applyBetS c1Store "p1" 50 false).toOption.getD c1Store

def c1Store2 : Store := (adjustPlayerWalletS c1Store1 "bk" "p1" (-100)).toOption.getD c1Store1

def c1Store3 : Store := (applyStandS c1Store2 "p1").toOption.getD c1Store2

def c1Store4 : Store := (applyStandS c1Store3 "bk").toOption.getD c1Store3

def c2BankerTurn : Turn := ⟨bankerP, .pending, [cardTen], 0, false, none, none⟩

def c2DupA : Turn := ⟨⟨"p", .player⟩, .standby, [cardFive], 10, false, none, none⟩

def c2DupB : Turn := ⟨⟨"p", .player⟩, .standby, [cardNine, cardTwelve], 4, false, none, none⟩

def c2Turns : List Turn := [c2BankerTurn, c2DupA, c2DupB]

def c4Round : Round :=
  ⟨[cardEleven, cardNine],
   [⟨playerOne, .pending, [cardFive, cardSix], 5, false, none, none⟩,
    ⟨playerTwo, .pending, [cardNine], 0, false, none, none⟩,
    ⟨bankerP, .pending, [cardTen], 0, false, none, none⟩],
   .playing, none⟩

def c5Round : Round :=
  ⟨[], [⟨playerOne, .pending, [cardFive], 0, false, none, none⟩], .playing, none⟩

def c6Room : RoomState :=
  ⟨100, 0, [("bk", 0), ("p1", 100)], [playerOne, bankerP], [], 0, [], none⟩

def c6Round : Round :=
  ⟨[cardNine],
   [⟨playerOne, .pending, [cardFive], 0, false, none, none⟩,
    ⟨bankerP, .pending, [cardTen], 0, false, none, none⟩],
   .playing, none⟩

def c6Store : Store := ⟨c6Room, some c6Round⟩

def c7PlayerTurn : Turn := ⟨playerOne, .standby, [cardTen], 10, false, none, none⟩

def c7BankerTurn : Turn := ⟨bankerP, .standby, [cardNine], 0, false, none, none⟩

def c7Lock : BankLock := ⟨"p1", .banker, 20, 0⟩

def c7Round : Round := ⟨[], [c7PlayerTurn, c7BankerTurn], .playing, some c7Lock⟩

def c7Room : RoomState :=
  ⟨100, 30, [("bk", 30), ("p1", 100)], [playerOne, bankerP], [], 0, [], none⟩

def c7RoomAfter : RoomState :=
  ⟨100, 20, [("bk", 20), ("p1", 110)], [playerOne, bankerP], [⟨10, "bk", "p1"⟩], 0, [], none⟩

def c8Room : RoomState :=
  ⟨100, 0, [("bk", 0), ("p1", 50)], [bankerP, playerOne], [], 0, [], none⟩

def c8Round : Round :=
  ⟨[],
   [⟨playerOne, .skipped, [cardFive], 0, false, none, none⟩,
    ⟨bankerP, .standby, [cardNine], 0, false, none, none⟩],
   .playing, some ⟨"p1", .decision, 50, 0⟩⟩

def c8Store : Store := ⟨c8Room, some c8Round⟩

def c8RoomAfter : RoomState :=
  ⟨100, 50, [("bk", 50), ("p1", 50)], [bankerP, playerOne], [], 0, [], none⟩

def c9LostTurn : Turn := ⟨playerOne, .lost, [cardTen, cardTen, cardFive], 5, false, none, none⟩

def c9Round : Round :=
  ⟨[],
   [c9LostTurn,
    ⟨playerTwo, .pending, [cardFive], 0, false, none, none⟩,
    ⟨bankerP, .pending, [cardTen], 0, false, none, none⟩],
   .playing, none⟩

/-! ## Counterexamples and failing-input evaluations -/

/-- C1 counterexample: a bet, a succeeding wallet adjustment that
leaves the stake uncovered, two stands and the finalization all
succeed, yet finalization drives the player's wallet to `-50`. -/
theorem c1_counterexample :
    walletsNonneg c1Store.room.wallets ∧
    applyBetS c1Store "p1" 50 false = .ok c1Store1 ∧
    adjustPlayerWalletS c1Store1 "bk" "p1" (-100) = .ok c1Store2 ∧
    applyStandS c1Store2 "p1" = .ok c1Store3 ∧
    applyStandS c1Store3 "bk" = .ok c1Store4 ∧
    wlookup (finalizeRoundS c1Store4).1.room.wallets "p1" = -50 := by decide

/-- C2 counterexample: with two non-banker turns sharing a player id,
the banker's recorded net (6) differs from the sum of losing bets minus
winning bets over the output (-8), and the stake is not conserved. -/
theorem c2_counterexample :
    (calculateEndState c2Turns).bind (fun out => (adminTurn? out).map (·.bet)) = some 6 ∧
    (calculateEndState c2Turns).map (fun out => sumBetsLostNB out - sumBetsWonNB out) =
      some (-8) ∧
    (calculateEndState c2Turns).map (fun out => sumBetsWonNB out - sumBetsLostNB out + 6) =
      some 14 := by decide

/-- C3 counterexample: a hand whose only total is 24 (busted) makes
`winningNumber` return no value (`undefined`), not the minimum busted
total 24 that the claim demands. -/
theorem c3_counterexample :
    getSums [cardFive, cardNine, cardTen] = some [24] ∧
    winningNumber [cardFive, cardNine, cardTen] = some none := by decide

/-- C4 failing-input evaluation: at prior best total 11, drawing the
11-card with eleveroon tags the card, but the evaluator still counts
it: the turn busts (`lost`) and the hand's best total becomes
`undefined` instead of staying 11. -/
theorem c4_eleveroon_bug :
    winningNumber [cardFive, cardSix] = some (some 11) ∧
    (handleHit c4Round "p1" true).toOption.bind (fun r => r.turns.head?) =
      some ⟨playerOne, .lost, [cardFive, cardSix, taggedEleven], 5, false, none, none⟩ ∧
    winningNumber [cardFive, cardSix, taggedEleven] = some none := by decide

/-- C5 counterexample: a round with a pending non-banker turn but no
banker turn is sent to `terminate` by the advance step, not kept
`playing` as the claim's final clause demands. -/
theorem c5_counterexample :
    pendingNonBanker c5Round.turns ≠ [] ∧
    advanceState c5Round = .ok { c5Round with state := .terminate } := by decide

/-- C6 counterexample: with `available = 0` and a positive new bet the
store fails with `bank_empty`, not with `bank_limit:0` as the claim's
"exactly when" demands. -/
theorem c6_counterexample :
    computeBankWindow c6Round c6Room "p1" = .ok (0, 0) ∧
    applyBetS c6Store "p1" 5 false = .error ("bank_empty", c6Store) := by decide

/-- C7 counterexample: an interim settlement that leaves the banker's
wallet positive but finds the deck empty commits the balances and then
fails with `deck_empty`: no fresh card is dealt, the lock is not
cleared and the banker does not return to `pending`. -/
theorem c7_counterexample :
    settleBankOutcome c7Round c7Room c7Lock c7BankerTurn = .error ("deck_empty", c7RoomAfter) ∧
    0 < wlookup c7RoomAfter.wallets "bk" := by decide

/-- C8 failing-input evaluation: a decision-stage banker top-up that
fails with `deck_empty` has already committed the wallet update — the
failed command observably changes the room. -/
theorem c8_rollback_violated :
    topUpBankerS c8Store "bk" 50 = .error ("deck_empty", ⟨c8RoomAfter, some c8Round⟩) ∧
    c8RoomAfter.wallets ≠ c8Room.wallets := by decide

/-- C9 counterexample: `stand` on a non-pending turn with a positive
bet (a busted, `lost` turn) still moves it to `standby`. -/
theorem c9_counterexample :
    c9LostTurn.state ≠ .pending ∧ 0 < c9LostTurn.bet ∧
    (handleStand c9Round "p1").toOption.bind (fun r => r.turns.head?) =
      some { c9LostTurn with state := .standby } := by decide

/-! ## Evaluator totality lemmas -/

theorem getSums_some {cards : List Card} (h : cards ≠ []) :
    ∃ sums, getSums cards = some sums := by
  obtain ⟨c, cs, rfl⟩ := List.exists_cons_of_ne_nil h
  exact ⟨_, rfl⟩

theorem calcState_some {cards : List Card} (h : cards ≠ []) :
    ∃ st, calcState cards = some st := by
  obtain ⟨sums, hs⟩ := getSums_some h
  unfold calcState
  rw [hs]
  split
  · next heq => simp at heq
  · next sums' heq =>
    split
    · exact ⟨_, rfl⟩
    · split
      · exact ⟨_, rfl⟩
      · split <;> exact ⟨_, rfl⟩

theorem winningNumber_some {cards : List Card} (h : cards ≠ []) :
    ∃ w, winningNumber cards = some w := by
  unfold winningNumber
  split
  · exact ⟨_, rfl⟩
  · obtain ⟨sums, hs⟩ := getSums_some h
    rw [hs]
    exact ⟨_, rfl⟩

theorem playerWon_some {a t : Turn} (ha : a.cards ≠ []) (ht : t.cards ≠ []) :
    ∃ w, playerWon a t = some w := by
  obtain ⟨wp, hwp⟩ := winningNumber_some ht
  obtain ⟨wa, hwa⟩ := winningNumber_some ha
  unfold playerWon
  rw [hwp, hwa]
  match wp, wa with
  | none, _ => exact ⟨_, rfl⟩
  | some _, none => exact ⟨_, rfl⟩
  | some _, some _ => exact ⟨_, rfl⟩

/-! ## Descending sort lemmas (for `winningNumber`) -/

theorem insertDesc_ne_nil (x : Nat) (l : List Nat) : insertDesc x l ≠ [] := by
  cases l with
  | nil => simp [insertDesc]
  | cons y ys =>
    unfold insertDesc
    split <;> simp

theorem sortDesc_eq_nil_iff (l : List Nat) : sortDesc l = [] ↔ l = [] := by
  cases l with
  | nil => simp [sortDesc]
  | cons x xs =>
    simp only [sortDesc, List.foldr_cons]
    exact ⟨fun h => absurd h (insertDesc_ne_nil x _), fun h => List.noConfusion h⟩

theorem mem_insertDesc {y x : Nat} {l : List Nat} :
    y ∈ insertDesc x l ↔ y = x ∨ y ∈ l := by
  induction l with
  | nil => simp [insertDesc]
  | cons z zs ih =>
    unfold insertDesc
    split
    · simp
    · simp only [List.mem_cons, ih]
      tauto

theorem insertDesc_cons_head (x y : Nat) (ys : List Nat) :
    (insertDesc x (y :: ys)).head? = some (max x y) := by
  unfold insertDesc
  split
  · next h => simp [Nat.max_eq_left h]
  · next h => simp [Nat.max_eq_right (Nat.le_of_lt (Nat.lt_of_not_le h))]

theorem sortDesc_head_spec :
    ∀ (l : List Nat) (m : Nat), (sortDesc l).head? = some m → m ∈ l ∧ ∀ x ∈ l, x ≤ m := by
  intro l
  induction l with
  | nil => intro m hm; simp [sortDesc] at hm
  | cons x xs ih =>
    intro m hm
    simp only [sortDesc, List.foldr_cons] at hm
    cases hs : sortDesc xs with
    | nil =>
      have hxs : xs = [] := (sortDesc_eq_nil_iff xs).mp hs
      subst hxs
      simp only [sortDesc] at hs
      rw [show (List.foldr insertDesc [] [] : List Nat) = [] from rfl] at hm
      simp [insertDesc] at hm
      subst hm
      exact ⟨List.mem_cons_self x [], by simp⟩
    | cons y ys =>
      rw [show List.foldr insertDesc [] xs = sortDesc xs from rfl, hs] at hm
      rw [insertDesc_cons_head] at hm
      have hym : (sortDesc xs).head? = some y := by rw [hs]; rfl
      obtain ⟨hymem, hybound⟩ := ih y hym
      have hm' : max x y = m := by injection hm
      subst hm'
      constructor
      · rcases Nat.le_total x y with hxy | hyx
        · rw [Nat.max_eq_right hxy]; exact List.mem_cons_of_mem x hymem
        · rw [Nat.max_eq_left hyx]; exact List.mem_cons_self x xs
      · intro z hz
        rcases List.mem_cons.mp hz with rfl | hz'
        · exact Nat.le_max_left _ _
        · exact Nat.le_trans (hybound z hz') (Nat.le_max_right _ _)

/-- C3 (amended): for every non-empty card sequence, `winningNumber`
returns 21 for a rosier pair; otherwise it returns the maximum
achievable total that is at most 21 when one exists, and returns no
value (JS `undefined`) — not the minimum busted total — when every
total exceeds 21. -/
theorem c3_winning_number_amended (cards : List Card) (h : cards ≠ []) :
    ∃ sums, getSums cards = some sums ∧
      (isRosierPair cards = true → winningNumber cards = some (some 21)) ∧
      (isRosierPair cards = false →
        ((∀ t ∈ sums, 21 < t) → winningNumber cards = some none) ∧
        (∀ s ∈ sums, s ≤ 21 →
          ∃ m, winningNumber cards = some (some m) ∧ m ∈ sums ∧ m ≤ 21 ∧
            ∀ t ∈ sums, t ≤ 21 → t ≤ m)) := by
  obtain ⟨sums, hs⟩ := getSums_some h
  refine ⟨sums, hs, ?_, ?_⟩
  · intro hr
    unfold winningNumber
    simp [hr]
  · intro hr
    constructor
    · intro hbust
      unfold winningNumber
      rw [hr, hs]
      simp only [Bool.false_eq_true, if_false]
      have hfe : sums.filter (fun s => decide (s ≤ 21)) = [] := by
        rw [List.filter_eq_nil_iff]
        intro a ha
        simp only [decide_eq_true_eq]
        exact Nat.not_le_of_lt (hbust a ha)
      rw [hfe]
      rfl
    · intro s hsmem hs21
      have hfmem : s ∈ sums.filter (fun s => decide (s ≤ 21)) := by
        rw [List.mem_filter]
        exact ⟨hsmem, by simpa using hs21⟩
      have hfne : sums.filter (fun s => decide (s ≤ 21)) ≠ [] := by
        intro hc; rw [hc] at hfmem; exact absurd hfmem (List.not_mem_nil s)
      have hsne : sortDesc (sums.filter (fun s => decide (s ≤ 21))) ≠ [] := by
        intro hc; exact hfne ((sortDesc_eq_nil_iff _).mp hc)
      obtain ⟨m, ms, hms⟩ := List.exists_cons_of_ne_nil hsne
      have hhead : (sortDesc (sums.filter (fun s => decide (s ≤ 21)))).head? = some m := by
        rw [hms]; rfl
      obtain ⟨hmmem, hmbound⟩ := sortDesc_head_spec _ m hhead
      refine ⟨m, ?_, ?_, ?_, ?_⟩
      · unfold winningNumber
        rw [hr, hs]
        simp only [Bool.false_eq_true, if_false]
        rw [hhead]
      · exact (List.mem_filter.mp hmmem).1
      · simpa using (List.mem_filter.mp hmmem).2
      · intro t htmem ht21
        exact hmbound t (List.mem_filter.mpr ⟨htmem, by simpa using ht21⟩)

/-- Witness for C3 at a concrete non-rosier hand: the single card "12". -/
theorem c3_witness :
    (([cardTwelve] : List Card) ≠ []) ∧
    (∃ sums, getSums [cardTwelve] = some sums ∧
      (isRosierPair [cardTwelve] = true → winningNumber [cardTwelve] = some (some 21)) ∧
      (isRosierPair [cardTwelve] = false →
        ((∀ t ∈ sums, 21 < t) → winningNumber [cardTwelve] = some none) ∧
        (∀ s ∈ sums, s ≤ 21 →
          ∃ m, winningNumber [cardTwelve] = some (some m) ∧ m ∈ sums ∧ m ≤ 21 ∧
            ∀ t ∈ sums, t ≤ 21 → t ≤ m))) :=
  ⟨by decide, c3_winning_number_amended [cardTwelve] (by decide)⟩

/-! ## C9: stand semantics -/

theorem advanceState_turns_of_ne_terminate {st r : Round}
    (h : advanceState st = .ok r) (hnt : r.state ≠ .terminate) : r.turns = st.turns := by
  unfold advanceState at h
  split at h
  · split at h
    · exact Except.noConfusion h
    · obtain rfl := Except.ok.inj h
      exact absurd rfl hnt
  · split at h
    · obtain rfl := Except.ok.inj h
      rfl
    · split at h
      · exact Except.noConfusion h
      · obtain rfl := Except.ok.inj h
        exact absurd rfl hnt
  · obtain rfl := Except.ok.inj h
    rfl

/-- C9 (amended): `stand` turns a zero-bet non-banker turn into `won`
with `settledBet = 0`, and moves every other turn — pending or not,
regardless of its current state — to `standby`; the source has no
pending-state guard.  Stated for calls whose advance step does not
terminate the round (termination recomputes states from the cards). -/
theorem c9_stand_amended (round : Round) (playerId : String) (i : Nat) (turn : Turn)
    (r : Round)
    (hfind : findTurn? round.turns playerId = some (i, turn))
    (hok : handleStand round playerId = .ok r)
    (hnt : r.state ≠ .terminate) :
    r.turns = round.turns.set i
      { turn with
        state := if turn.player.type != .admin && turn.bet == 0 then .won else .standby
        settledBet := if turn.player.type != .admin && turn.bet == 0 then some 0
                      else turn.settledBet } := by
  simp only [handleStand, hfind] at hok
  simpa using advanceState_turns_of_ne_terminate hok hnt

def c9WRound : Round :=
  ⟨[], [⟨playerOne, .pending, [cardFive], 0, false, none, none⟩,
        ⟨playerTwo, .pending, [cardFive], 0, false, none, none⟩,
        ⟨bankerP, .pending, [cardTen], 0, false, none, none⟩], .playing, none⟩

def c9WTurn : Turn := ⟨playerOne, .pending, [cardFive], 0, false, none, none⟩

def c9WRes : Round := (handleStand c9WRound "p1").toOption.getD c9WRound

theorem c9_witness :
    findTurn? c9WRound.turns "p1" = some (0, c9WTurn) ∧
    handleStand c9WRound "p1" = .ok c9WRes ∧
    c9WRes.state ≠ .terminate ∧
    c9WRes.turns = c9WRound.turns.set 0
      { c9WTurn with
        state := if c9WTurn.player.type != .admin && c9WTurn.bet == 0 then .won else .standby
        settledBet := if c9WTurn.player.type != .admin && c9WTurn.bet == 0 then some 0
                      else c9WTurn.settledBet } :=
  ⟨by decide, by decide, by decide,
    c9_stand_amended c9WRound "p1" 0 c9WTurn c9WRes (by decide) (by decide) (by decide)⟩

/-! ## End-state machinery -/

/-- Total form of `resolveT?` (equal to it on non-empty hands). -/
def resolveFun (a t : Turn) : Turn := (resolveT? a t).getD t

/-- The signed contribution of one resolved non-banker turn to the
banker's balance in `calculateEndState`. -/
def contribFun (a t : Turn) : Int :=
  if (resolveFun a t).state == .won then -t.bet
  else if (resolveFun a t).state == .lost then t.bet else 0

/-- The banker's accumulated balance over a list of non-banker turns. -/
def netSum (a : Turn) (ts : List Turn) : Int := (ts.map (contribFun a)).sum

/-- The banker's final state in `calculateEndState`, as a function of
its recomputed classification and accumulated balance. -/
def adminEndStateFun (a : Turn) (adminBalance : Int) : TurnState :=
  let adminActualState := (calcState a.cards).getD .pending
  if adminActualState == .lost then .lost
  else if adminActualState == .won then .won
  else if adminBalance < 0 then .lost
  else .standby

theorem resolveT?_some {a t : Turn} (ha : a.cards ≠ []) (ht : t.cards ≠ []) :
    ∃ s, resolveT? a t = some { t with state := s } := by
  obtain ⟨st, hst⟩ := calcState_some ht
  by_cases hsb : (t.state == TurnState.standby) = true
  · obtain ⟨w, hw⟩ := playerWon_some ha ht
    refine ⟨if st == .lost then .lost else if st == .won then .won
            else (if w then TurnState.won else TurnState.lost), ?_⟩
    simp [resolveT?, hst, hsb, hw]
  · refine ⟨if st == .lost then .lost else if st == .won then .won else t.state, ?_⟩
    simp [resolveT?, hst, hsb]

theorem resolveFun_eq {a t : Turn} (ha : a.cards ≠ []) (ht : t.cards ≠ []) :
    ∃ s, resolveFun a t = { t with state := s } ∧ resolveT? a t = some (resolveFun a t) := by
  obtain ⟨s, hs⟩ := resolveT?_some ha ht
  exact ⟨s, by rw [resolveFun, hs]; rfl, by rw [resolveFun, hs]; rfl⟩

theorem resolveFun_player {a t : Turn} (ha : a.cards ≠ []) (ht : t.cards ≠ []) :
    (resolveFun a t).player = t.player := by
  obtain ⟨s, hs, -⟩ := resolveFun_eq ha ht
  rw [hs]

theorem resolveFun_bet {a t : Turn} (ha : a.cards ≠ []) (ht : t.cards ≠ []) :
    (resolveFun a t).bet = t.bet := by
  obtain ⟨s, hs, -⟩ := resolveFun_eq ha ht
  rw [hs]

theorem resolveFun_cards {a t : Turn} (ha : a.cards ≠ []) (ht : t.cards ≠ []) :
    (resolveFun a t).cards = t.cards := by
  obtain ⟨s, hs, -⟩ := resolveFun_eq ha ht
  rw [hs]

theorem mem_mapSet {m : List (String × Turn)} {k : String} {v : Turn} {q : String × Turn}
    (h : q ∈ mapSet m k v) : q = (k, v) ∨ q ∈ m := by
  induction m with
  | nil => simpa [mapSet] using h
  | cons p ps ih =>
    unfold mapSet at h
    split at h
    · rcases List.mem_cons.mp h with h' | h'
      · left; exact h'
      · right; exact List.mem_cons_of_mem p h'
    · rcases List.mem_cons.mp h with h' | h'
      · right; rw [h']; exact List.mem_cons_self p ps
      · rcases ih h' with h'' | h''
        · left; exact h''
        · right; exact List.mem_cons_of_mem p h''

theorem mapGet?_mapSet_self (m : List (String × Turn)) (k : String) (v : Turn) :
    mapGet? (mapSet m k v) k = some v := by
  induction m with
  | nil => simp [mapSet, mapGet?]
  | cons p ps ih =>
    unfold mapSet
    by_cases hp : (p.1 == k) = true
    · simp [mapGet?, hp]
    · simp only [hp, Bool.false_eq_true, if_false]
      unfold mapGet?
      rw [List.find?_cons_of_neg _ (by simpa using hp)]
      exact ih

theorem mapGet?_mapSet_ne (m : List (String × Turn)) {k k' : String} (v : Turn)
    (h : k' ≠ k) : mapGet? (mapSet m k v) k' = mapGet? m k' := by
  have hkk : ((k : String) == k') = false := by
    simp only [beq_eq_false_iff_ne]
    exact fun hc => h hc.symm
  induction m with
  | nil => simp [mapSet, mapGet?, hkk]
  | cons p ps ih =>
    unfold mapSet
    by_cases hp : (p.1 == k) = true
    · have hp1 : p.1 = k := by simpa using hp
      simp only [hp, if_true]
      unfold mapGet?
      rw [List.find?_cons_of_neg _ (by simpa using hkk),
          List.find?_cons_of_neg _ (by rw [hp1]; simpa using hkk)]
    · simp only [hp, Bool.false_eq_true, if_false]
      by_cases hpk' : (p.1 == k') = true
      · unfold mapGet?
        rw [@List.find?_cons_of_pos _ (fun q => q.1 == k') p (mapSet ps k v) hpk',
            @List.find?_cons_of_pos _ (fun q => q.1 == k') p ps hpk']
      · unfold mapGet? at ih ⊢
        rw [List.find?_cons_of_neg _ (by simpa using hpk'),
            List.find?_cons_of_neg _ (by simpa using hpk')]
        exact ih

theorem endStateLoop_eq (a : Turn) (ha : a.cards ≠ []) :
    ∀ (ts : List Turn) (bal : Int) (res : List (String × Turn)),
      (∀ t ∈ ts, t.cards ≠ []) →
      endStateLoop a ts bal res =
        some (bal + netSum a ts,
          ts.foldl (fun m t => mapSet m t.player.id (resolveFun a t)) res) := by
  intro ts
  induction ts with
  | nil => intro bal res hwf; simp [endStateLoop, netSum]
  | cons t rest ih =>
    intro bal res hwf
    have ht : t.cards ≠ [] := hwf t (List.mem_cons_self t rest)
    obtain ⟨s, hres, hrt⟩ := resolveFun_eq ha ht
    have hstep : endStateLoop a (t :: rest) bal res =
        endStateLoop a rest
          (if (resolveFun a t).state == .won then bal - t.bet
           else if (resolveFun a t).state == .lost then bal + t.bet else bal)
          (mapSet res t.player.id (resolveFun a t)) := by
      simp only [endStateLoop, hrt]
    rw [hstep, ih _ _ (fun u hu => hwf u (List.mem_cons_of_mem t hu))]
    have hcontrib :
        (if (resolveFun a t).state == .won then bal - t.bet
         else if (resolveFun a t).state == .lost then bal + t.bet else bal)
        = bal + contribFun a t := by
      unfold contribFun
      by_cases h1 : ((resolveFun a t).state == TurnState.won) = true
      · simp [h1]
        ring
      · by_cases h2 : ((resolveFun a t).state == TurnState.lost) = true
        · simp [h1, h2]
        · simp [h1, h2]
    rw [hcontrib]
    simp [netSum, Int.add_assoc]

theorem foldl_mapSet_values (f : Turn → Turn) (P : Turn → Prop) :
    ∀ (ts : List Turn) (res : List (String × Turn)),
      (∀ kv ∈ res, P kv.2) → (∀ t ∈ ts, P (f t)) →
      ∀ kv ∈ ts.foldl (fun m u => mapSet m u.player.id (f u)) res, P kv.2 := by
  intro ts
  induction ts with
  | nil => intro res hres hts kv hkv; exact hres kv hkv
  | cons u rest ih =>
    intro res hres hts kv hkv
    simp only [List.foldl_cons] at hkv
    refine ih _ ?_ (fun t htm => hts t (List.mem_cons_of_mem u htm)) kv hkv
    intro q hq
    rcases mem_mapSet hq with rfl | hq'
    · exact hts u (List.mem_cons_self u rest)
    · exact hres q hq'

theorem mapGet?_foldl_not_mem (f : Turn → Turn) (k : String) :
    ∀ (ts : List Turn) (res : List (String × Turn)),
      (∀ t ∈ ts, t.player.id ≠ k) →
      mapGet? (ts.foldl (fun m u => mapSet m u.player.id (f u)) res) k = mapGet? res k := by
  intro ts
  induction ts with
  | nil => intro res h; rfl
  | cons u rest ih =>
    intro res h
    simp only [List.foldl_cons]
    rw [ih _ (fun t htm => h t (List.mem_cons_of_mem u htm))]
    exact mapGet?_mapSet_ne res _ (Ne.symm (h u (List.mem_cons_self u rest)))

theorem mapGet?_foldl_mapSet (f : Turn → Turn) :
    ∀ (ts : List Turn) (res : List (String × Turn)) (t : Turn),
      t ∈ ts → (ts.map (fun u => u.player.id)).Nodup →
      mapGet? (ts.foldl (fun m u => mapSet m u.player.id (f u)) res) t.player.id
        = some (f t) := by
  intro ts
  induction ts with
  | nil => intro res t ht hnd; cases ht
  | cons u rest ih =>
    intro res t ht hnd
    simp only [List.map_cons, List.nodup_cons] at hnd
    obtain ⟨hnotin, hndrest⟩ := hnd
    simp only [List.foldl_cons]
    rcases List.mem_cons.mp ht with rfl | htrest
    · rw [mapGet?_foldl_not_mem]
      · exact mapGet?_mapSet_self res _ _
      · intro x hx hcx
        exact hnotin (by rw [← hcx]; exact List.mem_map_of_mem _ hx)
    · exact ih _ t htrest hndrest

theorem calculateEndState_eq (turns : List Turn) (a : Turn)
    (ha : adminTurn? turns = some a)
    (hwf : ∀ t ∈ turns, t.cards ≠ [])
    (hnodup : ((turns.filter (fun t => t.player.type != .admin)).map
      (fun t => t.player.id)).Nodup) :
    calculateEndState turns = some (turns.map (fun t =>
      if t.player.type == .admin then
        { a with
          state := adminEndStateFun a
            (netSum a (turns.filter (fun t => t.player.type != .admin)))
          bet := netSum a (turns.filter (fun t => t.player.type != .admin)) }
      else resolveFun a t)) := by
  have hamem : a ∈ turns := List.mem_of_find?_eq_some ha
  have hacards : a.cards ≠ [] := hwf a hamem
  have hwfp : ∀ t ∈ turns.filter (fun t => t.player.type != .admin), t.cards ≠ [] :=
    fun t htm => hwf t (List.mem_of_mem_filter htm)
  obtain ⟨ast, hast⟩ := calcState_some hacards
  simp only [calculateEndState, ha, endStateLoop_eq a hacards _ 0 [] hwfp, hast]
  congr 1
  apply List.map_congr_left
  intro t htm
  by_cases hadm : (t.player.type == PlayerType.admin) = true
  · simp only [hadm, if_true]
    have : adminEndStateFun a (netSum a (turns.filter (fun t => t.player.type != .admin)))
        = (if ast == TurnState.lost then TurnState.lost
           else if ast == TurnState.won then TurnState.won
           else if (0 : Int) + netSum a (turns.filter (fun t => t.player.type != .admin)) < 0
           then TurnState.lost else TurnState.standby) := by
      unfold adminEndStateFun
      rw [hast]
      simp [Int.zero_add]
    rw [this]
    simp
  · simp only [hadm, Bool.false_eq_true, if_false]
    have htf : t ∈ turns.filter (fun t => t.player.type != .admin) := by
      rw [List.mem_filter]
      exact ⟨htm, by simpa using hadm⟩
    rw [mapGet?_foldl_mapSet (resolveFun a) _ [] t htf hnodup]
    rfl

theorem calculateEndState_wf (turns : List Turn) (hwf : ∀ t ∈ turns, t.cards ≠ []) :
    ∃ out, calculateEndState turns = some out ∧ ∀ t ∈ out, t.cards ≠ [] := by
  cases ha : adminTurn? turns with
  | none => exact ⟨turns, by simp [calculateEndState, ha], hwf⟩
  | some a =>
    have hamem : a ∈ turns := List.mem_of_find?_eq_some ha
    have hacards : a.cards ≠ [] := hwf a hamem
    have hwfp : ∀ t ∈ turns.filter (fun t => t.player.type != .admin), t.cards ≠ [] :=
      fun t htm => hwf t (List.mem_of_mem_filter htm)
    obtain ⟨ast, hast⟩ := calcState_some hacards
    cases hres : calculateEndState turns with
    | none =>
      exfalso
      simp only [calculateEndState, ha, endStateLoop_eq a hacards _ 0 [] hwfp, hast] at hres
      exact Option.noConfusion hres
    | some out =>
      refine ⟨out, rfl, ?_⟩
      simp only [calculateEndState, ha, endStateLoop_eq a hacards _ 0 [] hwfp, hast] at hres
      obtain rfl := Option.some.inj hres
      intro t' ht'
      obtain ⟨t, htm, rfl⟩ := List.mem_map.mp ht'
      by_cases hadm : (t.player.type == PlayerType.admin) = true
      · simpa [hadm] using hacards
      · simp only [hadm, Bool.false_eq_true, if_false]
        cases hv : mapGet? ((turns.filter (fun t => t.player.type != .admin)).foldl
            (fun m u => mapSet m u.player.id (resolveFun a u)) []) t.player.id with
        | none => simpa [hv] using hwf t htm
        | some v =>
          simp only [hv, Option.getD_some]
          have hfind := hv
          unfold mapGet? at hfind
          obtain ⟨kv, hkv, hkv2⟩ := Option.map_eq_some'.mp hfind
          have hkvmem := List.mem_of_find?_eq_some hkv
          have := foldl_mapSet_values (resolveFun a) (fun v => v.cards ≠ [])
            (turns.filter (fun t => t.player.type != .admin)) [] (by intro q hq; cases hq)
            (by
              intro u hu
              rw [resolveFun_cards hacards (hwfp u hu)]
              exact hwfp u hu)
            kv hkvmem
          rw [← hkv2]
          exact this

/-! ## C5: phase derivation of the advance step -/

/-- C5 (amended): the claim's phase table holds for rounds that contain
a banker turn (without one, `getGameState` yields `terminate` even with
pending non-banker turns, which the original claim's final clause
contradicts).  Non-empty hands make the end-state computation total. -/
theorem c5_advance_amended (round : Round) (a : Turn)
    (hadmin : adminTurn? round.turns = some a)
    (hwf : ∀ t ∈ round.turns, t.cards ≠ []) :
    ∃ r, advanceState round = .ok r ∧
      ((pendingNonBanker round.turns = [] ∧ resolvedNonBanker round.turns ≠ [] ∧
          a.state = .pending ∧
          (∃ t ∈ round.turns, t.player.type ≠ .admin ∧ t.state = .standby)) →
        r.state = .final ∧ r.turns = round.turns) ∧
      ((pendingNonBanker round.turns = [] ∧ resolvedNonBanker round.turns ≠ [] ∧
          a.state = .pending ∧
          ¬(∃ t ∈ round.turns, t.player.type ≠ .admin ∧ t.state = .standby)) →
        r.state = .terminate ∧ calculateEndState round.turns = some r.turns) ∧
      ((pendingNonBanker round.turns = [] ∧
          (resolvedNonBanker round.turns = [] ∨ a.state ≠ .pending)) →
        r.state = .terminate) ∧
      (pendingNonBanker round.turns ≠ [] → r.state = .playing ∧ r.turns = round.turns) := by
  obtain ⟨out, hout, houtwf⟩ := calculateEndState_wf round.turns hwf
  by_cases hp : pendingNonBanker round.turns = []
  · by_cases hr : resolvedNonBanker round.turns ≠ [] ∧ a.state = .pending
    · have hgs : getGameState round.turns = .final := by
        unfold getGameState
        rw [hadmin]
        simp [List.isEmpty_iff, hp, hr.1, hr.2]
      cases hstand : round.turns.any (fun t => t.player.type != .admin && t.state == .standby) with
      | true =>
        have hadv : advanceState round = .ok { round with state := .final } := by
          simp only [advanceState, hgs, hstand, if_true]
        refine ⟨_, hadv, fun _ => ⟨rfl, rfl⟩, ?_, ?_, ?_⟩
        · intro ⟨_, _, _, hno⟩
          exfalso
          obtain ⟨t, htm, hb⟩ := List.any_eq_true.mp hstand
          refine hno ⟨t, htm, ?_, ?_⟩ <;> simp only [Bool.and_eq_true] at hb
          · simpa using hb.1
          · simpa using hb.2
        · intro ⟨_, h2⟩
          exfalso
          rcases h2 with h | h
          · exact hr.1 h
          · exact h hr.2
        · intro hne; exact absurd hp hne
      | false =>
        have hadv : advanceState round =
            .ok { round with state := .terminate, turns := out } := by
          simp only [advanceState, hgs, hstand, Bool.false_eq_true, if_false, hout]
        refine ⟨_, hadv, ?_, fun _ => ⟨rfl, hout⟩, ?_, ?_⟩
        · intro ⟨_, _, _, hyes⟩
          exfalso
          obtain ⟨t, htm, h1, h2⟩ := hyes
          have : round.turns.any (fun t => t.player.type != .admin && t.state == .standby)
              = true :=
            List.any_eq_true.mpr ⟨t, htm, by simp [h1, h2]⟩
          rw [hstand] at this
          exact Bool.noConfusion this
        · intro ⟨_, h2⟩
          exfalso
          rcases h2 with h | h
          · exact hr.1 h
          · exact h hr.2
        · intro hne; exact absurd hp hne
    · have hgs : getGameState round.turns = .terminate := by
        unfold getGameState
        rw [hadmin]
        rcases not_and_or.mp hr with h | h
        · have h' : resolvedNonBanker round.turns = [] := not_not.mp h
          simp [List.isEmpty_iff, hp, h']
        · simp [List.isEmpty_iff, hp, h]
      have hadv : advanceState round =
          .ok { round with state := .terminate, turns := out } := by
        simp only [advanceState, hgs, hout]
      refine ⟨_, hadv, ?_, ?_, fun _ => rfl, ?_⟩
      · intro ⟨_, h2, h3, _⟩
        exact absurd ⟨h2, h3⟩ hr
      · intro ⟨_, h2, h3, _⟩
        exact absurd ⟨h2, h3⟩ hr
      · intro hne; exact absurd hp hne
  · have hgs : getGameState round.turns = .playing := by
      unfold getGameState
      rw [hadmin]
      have hpe : (pendingNonBanker round.turns).isEmpty = false := by
        rw [List.isEmpty_eq_false]
        exact hp
      simp [hpe]
    have hadv : advanceState round = .ok { round with state := .playing } := by
      simp only [advanceState, hgs]
    refine ⟨_, hadv, ?_, ?_, ?_, fun _ => ⟨rfl, rfl⟩⟩
    · intro ⟨h1, _⟩; exact absurd h1 hp
    · intro ⟨h1, _⟩; exact absurd h1 hp
    · intro ⟨h1, _⟩; exact absurd h1 hp

def c5WTurnP1 : Turn := ⟨playerOne, .standby, [cardFive], 5, false, none, none⟩

def c5WBanker : Turn := ⟨bankerP, .pending, [cardTen], 0, false, none, none⟩

def c5WRound : Round := ⟨[], [c5WTurnP1, c5WBanker], .playing, none⟩

theorem c5_witness :
    adminTurn? c5WRound.turns = some c5WBanker ∧
    (∀ t ∈ c5WRound.turns, t.cards ≠ []) ∧
    (∃ r, advanceState c5WRound = .ok r ∧
      ((pendingNonBanker c5WRound.turns = [] ∧ resolvedNonBanker c5WRound.turns ≠ [] ∧
          c5WBanker.state = .pending ∧
          (∃ t ∈ c5WRound.turns, t.player.type ≠ .admin ∧ t.state = .standby)) →
        r.state = .final ∧ r.turns = c5WRound.turns) ∧
      ((pendingNonBanker c5WRound.turns = [] ∧ resolvedNonBanker c5WRound.turns ≠ [] ∧
          c5WBanker.state = .pending ∧
          ¬(∃ t ∈ c5WRound.turns, t.player.type ≠ .admin ∧ t.state = .standby)) →
        r.state = .terminate ∧ calculateEndState c5WRound.turns = some r.turns) ∧
      ((pendingNonBanker c5WRound.turns = [] ∧
          (resolvedNonBanker c5WRound.turns = [] ∨ c5WBanker.state ≠ .pending)) →
        r.state = .terminate) ∧
      (pendingNonBanker c5WRound.turns ≠ [] →
        r.state = .playing ∧ r.turns = c5WRound.turns)) :=
  ⟨by decide, by decide, c5_advance_amended c5WRound c5WBanker (by decide) (by decide)⟩

/-! ## C10: evaluator totality inside the engine -/

/-- The well-formedness the engine maintains: every turn holds at least
one card. -/
def turnsWF (round : Round) : Prop := ∀ t ∈ round.turns, t.cards ≠ []

instance (round : Round) : Decidable (turnsWF round) := by
  unfold turnsWF; infer_instance

theorem findTurn?_mem {turns : List Turn} {pid : String} {i : Nat} {turn : Turn}
    (h : findTurn? turns pid = some (i, turn)) : turn ∈ turns := by
  unfold findTurn? at h
  split at h
  · exact Option.noConfusion h
  · next j hj =>
    cases hget : turns[j]? with
    | none => rw [hget] at h; exact Option.noConfusion h
    | some u =>
      rw [hget] at h
      simp only [Option.map_some'] at h
      have huv := Option.some.inj h
      have hu : u = turn := congrArg Prod.snd huv
      rw [← hu]
      exact List.getElem?_mem hget

theorem wf_set {l : List Turn} (i : Nat) (v : Turn)
    (h : ∀ t ∈ l, t.cards ≠ []) (hv : v.cards ≠ []) : ∀ t ∈ l.set i v, t.cards ≠ [] := by
  intro t ht
  rcases List.mem_or_eq_of_mem_set ht with h' | h'
  · exact h t h'
  · rw [h']; exact hv

theorem advanceState_wf (st : Round) (h : ∀ t ∈ st.turns, t.cards ≠ []) :
    ∃ r, advanceState st = .ok r ∧ ∀ t ∈ r.turns, t.cards ≠ [] := by
  obtain ⟨out, hout, houtwf⟩ := calculateEndState_wf st.turns h
  cases hgs : getGameState st.turns with
  | terminate =>
    exact ⟨{ st with state := .terminate, turns := out },
      by simp only [advanceState, hgs, hout], houtwf⟩
  | final =>
    cases hstand : st.turns.any (fun t => t.player.type != .admin && t.state == .standby) with
    | true =>
      exact ⟨{ st with state := .final }, by simp only [advanceState, hgs, hstand, if_true], h⟩
    | false =>
      exact ⟨{ st with state := .terminate, turns := out },
        by simp only [advanceState, hgs, hstand, Bool.false_eq_true, if_false, hout], houtwf⟩
  | playing =>
    exact ⟨{ st with state := .playing }, by simp only [advanceState, hgs], h⟩

theorem handleBet_total (round : Round) (playerId : String) (amount : Int)
    (hwf : turnsWF round) :
    (∃ e, handleBet round playerId amount = .error e ∧
      e ∈ ["turn_not_found", "round_terminated", "invalid_bet", "deck_empty"]) ∨
    (∃ r, handleBet round playerId amount = .ok r ∧ turnsWF r) := by
  rcases hres : handleBet round playerId amount with e | r
  · left
    refine ⟨e, rfl, ?_⟩
    unfold handleBet at hres
    split at hres
    · obtain rfl := Except.error.inj hres; decide
    · next i turn heqf =>
      split at hres
      · obtain rfl := Except.error.inj hres; decide
      · split at hres
        · obtain rfl := Except.error.inj hres; decide
        · split at hres
          · obtain rfl := Except.error.inj hres; decide
          · next picked rest heqd =>
            split at hres
            · next heqc =>
              obtain ⟨st, hst⟩ := calcState_some (show turn.cards ++ [picked] ≠ [] by simp)
              rw [hst] at heqc
              exact Option.noConfusion heqc
            · next st heqc =>
              try simp only [] at hres
              have hv : ({ turn with bet := turn.bet + amount, cards := turn.cards ++ [picked], state := st } : Turn).cards ≠ [] := by simp
              obtain ⟨r', hadv, _⟩ := advanceState_wf ({ round with deck := rest, turns := round.turns.set i ({ turn with bet := turn.bet + amount, cards := turn.cards ++ [picked], state := st }) }) (wf_set i _ hwf hv)
              rw [hadv] at hres
              exact Except.noConfusion hres
  · right
    refine ⟨r, rfl, ?_⟩
    unfold handleBet at hres
    split at hres
    · exact Except.noConfusion hres
    · next i turn heqf =>
      split at hres
      · exact Except.noConfusion hres
      · split at hres
        · exact Except.noConfusion hres
        · split at hres
          · exact Except.noConfusion hres
          · next picked rest heqd =>
            split at hres
            · exact Except.noConfusion hres
            · next st heqc =>
              try simp only [] at hres
              have hv : ({ turn with bet := turn.bet + amount, cards := turn.cards ++ [picked], state := st } : Turn).cards ≠ [] := by simp
              obtain ⟨r', hadv, hrwf⟩ := advanceState_wf ({ round with deck := rest, turns := round.turns.set i ({ turn with bet := turn.bet + amount, cards := turn.cards ++ [picked], state := st }) }) (wf_set i _ hwf hv)
              rw [hadv] at hres
              obtain rfl := Except.ok.inj hres
              exact hrwf

theorem advanceState_no_error {st : Round} {e : String}
    (hres : advanceState st = .error e) (h : ∀ t ∈ st.turns, t.cards ≠ []) : False := by
  obtain ⟨r, hadv, -⟩ := advanceState_wf st h
  rw [hadv] at hres
  exact Except.noConfusion hres

theorem advanceState_ok_wf {st r : Round} (hok : advanceState st = .ok r)
    (h : ∀ t ∈ st.turns, t.cards ≠ []) : turnsWF r := by
  obtain ⟨r', hadv, hwf'⟩ := advanceState_wf st h
  rw [hadv] at hok
  obtain rfl := Except.ok.inj hok
  exact hwf'

theorem calcState_append_ne_none (l : List Card) (c : Card) : calcState (l ++ [c]) ≠ none := by
  obtain ⟨st, hst⟩ := calcState_some (show l ++ [c] ≠ [] by simp)
  rw [hst]
  exact fun hc => Option.noConfusion hc

theorem winningNumber_ne_none {l : List Card} (h : l ≠ []) : winningNumber l ≠ none := by
  obtain ⟨w, hw⟩ := winningNumber_some h
  rw [hw]
  exact fun hc => Option.noConfusion hc

theorem handleStand_total (round : Round) (playerId : String) (hwf : turnsWF round) :
    (∃ e, handleStand round playerId = .error e ∧ e ∈ ["turn_not_found"]) ∨
    (∃ r, handleStand round playerId = .ok r ∧ turnsWF r) := by
  rcases hres : handleStand round playerId with e | r
  · left
    refine ⟨e, rfl, ?_⟩
    unfold handleStand at hres
    split at hres
    · obtain rfl := Except.error.inj hres; decide
    · next i turn heqf =>
      try simp only [] at hres
      exact (advanceState_no_error hres
        (wf_set i _ hwf (by simpa using hwf turn (findTurn?_mem heqf)))).elim
  · right
    refine ⟨r, rfl, ?_⟩
    unfold handleStand at hres
    split at hres
    · exact Except.noConfusion hres
    · next i turn heqf =>
      try simp only [] at hres
      exact advanceState_ok_wf hres
        (wf_set i _ hwf (by simpa using hwf turn (findTurn?_mem heqf)))

theorem handleSkip_total (round : Round) (playerId : String) (hwf : turnsWF round) :
    (∃ e, handleSkip round playerId = .error e ∧ e ∈ ["turn_not_found"]) ∨
    (∃ r, handleSkip round playerId = .ok r ∧ turnsWF r) := by
  rcases hres : handleSkip round playerId with e | r
  · left
    refine ⟨e, rfl, ?_⟩
    unfold handleSkip at hres
    split at hres
    · obtain rfl := Except.error.inj hres; decide
    · next i turn heqf =>
      exact (advanceState_no_error hres
        (wf_set i _ hwf (by simpa using hwf turn (findTurn?_mem heqf)))).elim
  · right
    refine ⟨r, rfl, ?_⟩
    unfold handleSkip at hres
    split at hres
    · exact Except.noConfusion hres
    · next i turn heqf =>
      exact advanceState_ok_wf hres
        (wf_set i _ hwf (by simpa using hwf turn (findTurn?_mem heqf)))

theorem handleHit_total (round : Round) (playerId : String) (elev : Bool)
    (hwf : turnsWF round) :
    (∃ e, handleHit round playerId elev = .error e ∧
      e ∈ ["turn_not_found", "round_terminated", "deck_empty"]) ∨
    (∃ r, handleHit round playerId elev = .ok r ∧ turnsWF r) := by
  rcases hres : handleHit round playerId elev with e | r
  · left
    refine ⟨e, rfl, ?_⟩
    unfold handleHit at hres
    split at hres
    · obtain rfl := Except.error.inj hres; decide
    · next i turn heqf =>
      have hturn := findTurn?_mem heqf
      split at hres
      · obtain rfl := Except.error.inj hres; decide
      · split at hres
        · obtain rfl := Except.error.inj hres; decide
        · next picked rest heqd =>
          split at hres
          · next heqw =>
            exact absurd heqw (winningNumber_ne_none (hwf turn hturn))
          · next priorTotal heqw =>
            try simp only [] at hres
            split at hres
            · next heqc =>
              exact absurd heqc (calcState_append_ne_none _ _)
            · next probeState heqc =>
              try simp only [] at hres
              split at hres
              · next heqc2 =>
                exact absurd heqc2 (calcState_append_ne_none _ _)
              · next nextState0 heqc2 =>
                try simp only [] at hres
                split at hres
                · split at hres
                  · next heqw2 =>
                    exact absurd heqw2 (winningNumber_ne_none (by simp))
                  · next bestTotal heqw2 =>
                    split at hres
                    · exact (advanceState_no_error hres
                        (wf_set i _ hwf (by simp))).elim
                    · next b =>
                      split at hres
                      · exact (advanceState_no_error hres
                          (wf_set i _ hwf (by simp))).elim
                      · exact (advanceState_no_error hres
                          (wf_set i _ hwf (by simp))).elim
                · exact (advanceState_no_error hres
                    (wf_set i _ hwf (by simp))).elim
  · right
    refine ⟨r, rfl, ?_⟩
    unfold handleHit at hres
    split at hres
    · exact Except.noConfusion hres
    · next i turn heqf =>
      have hturn := findTurn?_mem heqf
      split at hres
      · exact Except.noConfusion hres
      · split at hres
        · exact Except.noConfusion hres
        · next picked rest heqd =>
          split at hres
          · next heqw =>
            exact absurd heqw (winningNumber_ne_none (hwf turn hturn))
          · next priorTotal heqw =>
            try simp only [] at hres
            split at hres
            · next heqc =>
              exact absurd heqc (calcState_append_ne_none _ _)
            · next probeState heqc =>
              try simp only [] at hres
              split at hres
              · next heqc2 =>
                exact absurd heqc2 (calcState_append_ne_none _ _)
              · next nextState0 heqc2 =>
                try simp only [] at hres
                split at hres
                · split at hres
                  · next heqw2 =>
                    exact absurd heqw2 (winningNumber_ne_none (by simp))
                  · next bestTotal heqw2 =>
                    split at hres
                    · exact advanceState_ok_wf hres (wf_set i _ hwf (by simp))
                    · next b =>
                      split at hres
                      · exact advanceState_ok_wf hres (wf_set i _ hwf (by simp))
                      · exact advanceState_ok_wf hres (wf_set i _ hwf (by simp))
                · exact advanceState_ok_wf hres (wf_set i _ hwf (by simp))

theorem initializeTurns_cards :
    ∀ (players : List Player) (deck : List Card) (turns : List Turn) (rest : List Card),
      initializeTurns players deck = .ok (turns, rest) → ∀ t ∈ turns, t.cards.length = 1 := by
  intro players
  induction players with
  | nil =>
    intro deck turns rest h t ht
    have heq := Except.ok.inj h
    injection heq with h1 h2
    rw [← h1] at ht
    cases ht
  | cons p ps ih =>
    intro deck turns rest h t ht
    cases deck with
    | nil =>
      unfold initializeTurns at h
      exact Except.noConfusion h
    | cons c dcs =>
      cases hrec : initializeTurns ps dcs with
      | error e =>
        simp only [initializeTurns, hrec] at h
        exact Except.noConfusion h
      | ok pr =>
        obtain ⟨ts, d⟩ := pr
        simp only [initializeTurns, hrec] at h
        have heq := Except.ok.inj h
        injection heq with h1 h2
        rw [← h1] at ht
        rcases List.mem_cons.mp ht with rfl | htm
        · rfl
        · exact ih dcs ts d hrec t htm

/-- C10: the reducer-based evaluator raises on an empty card sequence
(`calcSums`/`getSums`/`calcState`/`winningNumber` all yield the
`reduce`-exception value `none` on `[]`), every turn is created with
exactly one card, and on rounds whose turns all hold at least one card
(the invariant each engine operation preserves) no engine operation can
surface the reduce exception. -/
theorem c10_evaluator_totality :
    calcSums [] = none ∧ getSums [] = none ∧ calcState [] = none ∧ winningNumber [] = none ∧
    (∀ players deck turns rest, initializeTurns players deck = .ok (turns, rest) →
      ∀ t ∈ turns, t.cards.length = 1) ∧
    (∀ round playerId amount, turnsWF round →
      (∀ e, handleBet round playerId amount = .error e → e ≠ "reduce_of_empty_array") ∧
      (∀ r, handleBet round playerId amount = .ok r → turnsWF r)) ∧
    (∀ round playerId elev, turnsWF round →
      (∀ e, handleHit round playerId elev = .error e → e ≠ "reduce_of_empty_array") ∧
      (∀ r, handleHit round playerId elev = .ok r → turnsWF r)) ∧
    (∀ round playerId, turnsWF round →
      (∀ e, handleStand round playerId = .error e → e ≠ "reduce_of_empty_array") ∧
      (∀ r, handleStand round playerId = .ok r → turnsWF r)) ∧
    (∀ round playerId, turnsWF round →
      (∀ e, handleSkip round playerId = .error e → e ≠ "reduce_of_empty_array") ∧
      (∀ r, handleSkip round playerId = .ok r → turnsWF r)) := by
  refine ⟨rfl, rfl, rfl, rfl, initializeTurns_cards, ?_, ?_, ?_, ?_⟩
  · intro round pid amount hwf
    constructor
    · intro e he
      rcases handleBet_total round pid amount hwf with ⟨e', he', hmem⟩ | ⟨r, hr, _⟩
      · obtain rfl : e' = e := Except.error.inj (he'.symm.trans he)
        intro hc
        rw [hc] at hmem
        exact absurd hmem (by decide)
      · rw [hr] at he; exact Except.noConfusion he
    · intro r hr
      rcases handleBet_total round pid amount hwf with ⟨e', he', _⟩ | ⟨r', hr', hwf'⟩
      · rw [he'] at hr; exact Except.noConfusion hr
      · rw [hr'] at hr
        obtain rfl := Except.ok.inj hr
        exact hwf'
  · intro round pid elev hwf
    constructor
    · intro e he
      rcases handleHit_total round pid elev hwf with ⟨e', he', hmem⟩ | ⟨r, hr, _⟩
      · obtain rfl : e' = e := Except.error.inj (he'.symm.trans he)
        intro hc
        rw [hc] at hmem
        exact absurd hmem (by decide)
      · rw [hr] at he; exact Except.noConfusion he
    · intro r hr
      rcases handleHit_total round pid elev hwf with ⟨e', he', _⟩ | ⟨r', hr', hwf'⟩
      · rw [he'] at hr; exact Except.noConfusion hr
      · rw [hr'] at hr
        obtain rfl := Except.ok.inj hr
        exact hwf'
  · intro round pid hwf
    constructor
    · intro e he
      rcases handleStand_total round pid hwf with ⟨e', he', hmem⟩ | ⟨r, hr, _⟩
      · obtain rfl : e' = e := Except.error.inj (he'.symm.trans he)
        intro hc
        rw [hc] at hmem
        exact absurd hmem (by decide)
      · rw [hr] at he; exact Except.noConfusion he
    · intro r hr
      rcases handleStand_total round pid hwf with ⟨e', he', _⟩ | ⟨r', hr', hwf'⟩
      · rw [he'] at hr; exact Except.noConfusion hr
      · rw [hr'] at hr
        obtain rfl := Except.ok.inj hr
        exact hwf'
  · intro round pid hwf
    constructor
    · intro e he
      rcases handleSkip_total round pid hwf with ⟨e', he', hmem⟩ | ⟨r, hr, _⟩
      · obtain rfl : e' = e := Except.error.inj (he'.symm.trans he)
        intro hc
        rw [hc] at hmem
        exact absurd hmem (by decide)
      · rw [hr] at he; exact Except.noConfusion he
    · intro r hr
      rcases handleSkip_total round pid hwf with ⟨e', he', _⟩ | ⟨r', hr', hwf'⟩
      · rw [he'] at hr; exact Except.noConfusion hr
      · rw [hr'] at hr
        obtain rfl := Except.ok.inj hr
        exact hwf'

/-- Witness for C10: the engine-totality conjunct applied to a concrete
well-formed round. -/
theorem c10_witness :
    turnsWF c1Round ∧
    (∀ e, handleBet c1Round "p1" 5 = .error e → e ≠ "reduce_of_empty_array") ∧
    (∀ r, handleBet c1Round "p1" 5 = .ok r → turnsWF r) :=
  ⟨by decide, (c10_evaluator_totality.2.2.2.2.2.1 c1Round "p1" 5 (by decide)).1,
    (c10_evaluator_totality.2.2.2.2.2.1 c1Round "p1" 5 (by decide)).2⟩

/-! ## C2: banker net and stake conservation -/

theorem sumBetsWonNB_cons (t : Turn) (ts : List Turn) :
    sumBetsWonNB (t :: ts) =
      (if (t.player.type != .admin && t.state == .won) = true then t.bet else 0)
        + sumBetsWonNB ts := by
  unfold sumBetsWonNB
  rw [List.filter_cons]
  split
  · next h => simp [h]
  · next h => simp [h]

theorem sumBetsLostNB_cons (t : Turn) (ts : List Turn) :
    sumBetsLostNB (t :: ts) =
      (if (t.player.type != .admin && t.state == .lost) = true then t.bet else 0)
        + sumBetsLostNB ts := by
  unfold sumBetsLostNB
  rw [List.filter_cons]
  split
  · next h => simp [h]
  · next h => simp [h]

theorem netSum_cons (a t : Turn) (ts : List Turn) :
    netSum a (t :: ts) = contribFun a t + netSum a ts := by
  simp [netSum]

theorem adminTurn?_map_resolve (a AR : Turn)
    (hARtype : AR.player.type = .admin) (hacards : a.cards ≠ []) :
    ∀ ts : List Turn, (∀ t ∈ ts, t.cards ≠ []) →
      (∃ t ∈ ts, t.player.type = .admin) →
      adminTurn? (ts.map (fun t =>
        if t.player.type == PlayerType.admin then AR else resolveFun a t)) = some AR := by
  intro ts
  induction ts with
  | nil =>
    intro _ hex
    obtain ⟨t, ht, -⟩ := hex
    cases ht
  | cons t rest ih =>
    intro hwf' hex
    simp only [List.map_cons]
    by_cases htadm : (t.player.type == PlayerType.admin) = true
    · simp only [htadm, if_true]
      simp [adminTurn?, List.find?_cons, hARtype]
    · have hne : t.cards ≠ [] := hwf' t (List.mem_cons_self t rest)
      have hplayer := resolveFun_player hacards hne
      have hbf : (t.player.type == PlayerType.admin) = false := by simpa using htadm
      simp only [htadm, Bool.false_eq_true, if_false]
      unfold adminTurn?
      rw [List.find?_cons, hplayer, hbf]
      simp only [Bool.false_eq_true, if_false]
      refine ih (fun u hu => hwf' u (List.mem_cons_of_mem t hu)) ?_
      obtain ⟨u, hu, hut⟩ := hex
      rcases List.mem_cons.mp hu with rfl | hu'
      · exact absurd (by simp [hut]) htadm
      · exact ⟨u, hu', hut⟩

theorem sums_map_resolve (a AR : Turn)
    (hARtype : AR.player.type = .admin) (hacards : a.cards ≠ []) :
    ∀ ts : List Turn, (∀ t ∈ ts, t.cards ≠ []) →
      sumBetsLostNB (ts.map (fun t =>
          if t.player.type == PlayerType.admin then AR else resolveFun a t))
        - sumBetsWonNB (ts.map (fun t =>
          if t.player.type == PlayerType.admin then AR else resolveFun a t))
        = netSum a (ts.filter (fun t => t.player.type != .admin)) := by
  intro ts
  induction ts with
  | nil => simp [sumBetsLostNB, sumBetsWonNB, netSum]
  | cons t rest ih =>
    intro hwf'
    have ihr := ih (fun u hu => hwf' u (List.mem_cons_of_mem t hu))
    simp only [List.map_cons]
    rw [sumBetsLostNB_cons, sumBetsWonNB_cons, List.filter_cons]
    by_cases htadm : (t.player.type == PlayerType.admin) = true
    · have hARbne : (AR.player.type != PlayerType.admin) = false := by simp [hARtype]
      have htbne : (t.player.type != PlayerType.admin) = false := by
        simp only [bne_eq_false_iff_eq]
        simpa using htadm
      simp only [htadm, if_true, hARbne, Bool.false_and, Bool.false_eq_true, if_false,
        htbne, Int.zero_add]
      exact ihr
    · have hne : t.cards ≠ [] := hwf' t (List.mem_cons_self t rest)
      have hplayer := resolveFun_player hacards hne
      have hbet := resolveFun_bet hacards hne
      have htbne : (t.player.type != PlayerType.admin) = true := by
        simpa using htadm
      have hrtbne : ((resolveFun a t).player.type != PlayerType.admin) = true := by
        rw [hplayer]; exact htbne
      simp only [htadm, Bool.false_eq_true, if_false, hrtbne, Bool.true_and, htbne, if_true]
      rw [netSum_cons]
      unfold contribFun
      by_cases hw : ((resolveFun a t).state == TurnState.won) = true
      · have hl : ((resolveFun a t).state == TurnState.lost) = false := by
          have : (resolveFun a t).state = TurnState.won := by simpa using hw
          simp [this]
        simp only [hw, if_true, hl, Bool.false_eq_true, if_false, hbet]
        omega
      · by_cases hl : ((resolveFun a t).state == TurnState.lost) = true
        · simp only [hw, Bool.false_eq_true, if_false, hl, if_true, hbet]
          omega
        · simp only [hw, Bool.false_eq_true, if_false, hl, hbet]
          omega

/-- The banker's resolved turn produced by `calculateEndState`: state
from the recomputed classification and balance sign, `bet` overwritten
with the signed net. -/
def adminResolvedFun (a : Turn) (net : Int) : Turn :=
  { a with state := adminEndStateFun a net, bet := net }

/-- C2 (amended): for every list of turns containing a banker turn,
whose hands are non-empty and whose non-banker player ids are pairwise
distinct (two non-banker turns sharing an id alias each other in the
resolved-players map and break both equalities), `calculateEndState`
overwrites the banker's `bet` with the sum of the losing non-banker
bets minus the sum of the winning non-banker bets, and the total stake
is conserved. -/
theorem c2_end_state_conservation (turns : List Turn) (a : Turn)
    (ha : adminTurn? turns = some a)
    (hwf : ∀ t ∈ turns, t.cards ≠ [])
    (hnodup : ((turns.filter (fun t => t.player.type != .admin)).map
      (fun t => t.player.id)).Nodup) :
    ∃ out, calculateEndState turns = some out ∧
      adminTurn? out = some (adminResolvedFun a
        (netSum a (turns.filter (fun t => t.player.type != .admin)))) ∧
      (adminResolvedFun a
        (netSum a (turns.filter (fun t => t.player.type != .admin)))).bet
        = sumBetsLostNB out - sumBetsWonNB out ∧
      sumBetsWonNB out - sumBetsLostNB out
        + (adminResolvedFun a
          (netSum a (turns.filter (fun t => t.player.type != .admin)))).bet = 0 := by
  have ha' : turns.find? (fun t => t.player.type == PlayerType.admin) = some a := ha
  have hamem : a ∈ turns := List.mem_of_find?_eq_some ha'
  have hacards : a.cards ≠ [] := hwf a hamem
  have hatype : (a.player.type == PlayerType.admin) = true := by
    have h := List.find?_some ha'
    exact h
  have hARtype : (adminResolvedFun a
      (netSum a (turns.filter (fun t => t.player.type != .admin)))).player.type
      = PlayerType.admin := by
    simp only [adminResolvedFun]
    simpa using hatype
  have hout := calculateEndState_eq turns a ha hwf hnodup
  refine ⟨_, hout, ?_, ?_, ?_⟩
  · exact adminTurn?_map_resolve a _ hARtype hacards turns hwf
      ⟨a, hamem, by simpa using hatype⟩
  · exact (sums_map_resolve a _ hARtype hacards turns hwf).symm
  · have h2 := sums_map_resolve a (adminResolvedFun a
      (netSum a (turns.filter (fun t => t.player.type != .admin)))) hARtype hacards turns hwf
    simp only [adminResolvedFun] at h2
    show sumBetsWonNB _ - sumBetsLostNB _
      + netSum a (turns.filter (fun t => t.player.type != .admin)) = 0
    omega

def c2WPlayerTurn : Turn := ⟨playerOne, .standby, [cardFive, cardFive], 5, false, none, none⟩

def c2WBankerTurn : Turn := ⟨bankerP, .pending, [cardTen], 0, false, none, none⟩

def c2WTurns : List Turn := [c2WPlayerTurn, c2WBankerTurn]

theorem c2_witness :
    adminTurn? c2WTurns = some c2WBankerTurn ∧
    (∀ t ∈ c2WTurns, t.cards ≠ []) ∧
    ((c2WTurns.filter (fun t => t.player.type != .admin)).map
      (fun t => t.player.id)).Nodup ∧
    (∃ out, calculateEndState c2WTurns = some out ∧
      adminTurn? out = some (adminResolvedFun c2WBankerTurn
        (netSum c2WBankerTurn (c2WTurns.filter (fun t => t.player.type != .admin)))) ∧
      (adminResolvedFun c2WBankerTurn
        (netSum c2WBankerTurn (c2WTurns.filter (fun t => t.player.type != .admin)))).bet
        = sumBetsLostNB out - sumBetsWonNB out ∧
      sumBetsWonNB out - sumBetsLostNB out
        + (adminResolvedFun c2WBankerTurn
          (netSum c2WBankerTurn (c2WTurns.filter (fun t => t.player.type != .admin)))).bet
        = 0) :=
  ⟨by decide, by decide, by decide,
    c2_end_state_conservation c2WTurns c2WBankerTurn (by decide) (by decide) (by decide)⟩

/-- C6 (amended): for an applyBet on a found round with a found turn, no
blocking bank lock, a positive amount and a sufficient wallet, with
`computeBankWindow` yielding `(available, playerIndex)` (available =
max(banker wallet − earlier live stakes, 0), playerIndex = the bettor's
seat): the call fails with `bank_empty` whenever `available ≤ 0` — this
guard precedes the limit check, so `bank_limit:0` is never produced —
fails with `bank_limit:<available>` when `0 < available < newBet`, fails
with `invalid_bank_amount` when the bank flag is set but the new
cumulative bet differs from `available`, and when the new cumulative bet
equals `available` (and the engine bet succeeds, leaving the bettor's
turn pending) a bank lock `⟨playerId, player, available, playerIndex⟩`
is opened and survives the post-processing step. -/
theorem c6_apply_bet_amended (store : Store) (round : Round) (playerTurn : Turn)
    (playerId : String) (amount : Int) (bank : Bool) (available : Int) (playerIndex : Nat)
    (hround : store.round = some round)
    (hamt : 0 < amount)
    (hfind : round.turns.find? (fun t => t.player.id == playerId) = some playerTurn)
    (hlock : betLockError round.bankLock playerId = none)
    (hwallet : playerTurn.bet + amount ≤ wlookup store.room.wallets playerId)
    (hwin : computeBankWindow round store.room playerId = .ok (available, playerIndex)) :
    (available ≤ 0 →
      applyBetS store playerId amount bank = .error ("bank_empty", store)) ∧
    (0 < available → available < playerTurn.bet + amount →
      applyBetS store playerId amount bank
        = .error ("bank_limit:" ++ toString available, store)) ∧
    (∀ updated, 0 < available → playerTurn.bet + amount ≤ available →
      handleBet round playerId amount = .ok updated →
      (bank = true → playerTurn.bet + amount ≠ available →
        applyBetS store playerId amount bank = .error ("invalid_bank_amount", store)) ∧
      (playerTurn.bet + amount = available →
        ∀ t, (updated.turns.map (fun u => if u.player.id == playerId then { u with bankRequest := true } else u))[playerIndex]? = some t →
          t.player.id = playerId → t.state = .pending →
          applyBetS store playerId amount bank =
            .ok ⟨store.room, some { updated with bankLock := some ⟨playerId, .player, available, playerIndex⟩, turns := updated.turns.map (fun u => if u.player.id == playerId then { u with bankRequest := true } else u) }⟩)) := by
  have hamt' : ¬ (amount ≤ 0) := by omega
  have hwallet' : ¬ (wlookup store.room.wallets playerId < playerTurn.bet + amount) := by
    omega
  refine ⟨?_, ?_, ?_⟩
  · intro h1
    simp only [applyBetS, hround, hfind, hlock, hwin]
    rw [if_neg hamt', if_neg hwallet', if_pos h1]
  · intro h0 h2
    simp only [applyBetS, hround, hfind, hlock, hwin]
    rw [if_neg hamt', if_neg hwallet', if_neg (by omega : ¬ (available ≤ 0)), if_pos h2]
  · intro updated h0 hle hupd
    constructor
    · intro hbank hne
      simp only [applyBetS, hround, hfind, hlock, hwin, hupd]
      rw [if_neg hamt', if_neg hwallet', if_neg (by omega : ¬ (available ≤ 0)),
        if_neg (by omega : ¬ (available < playerTurn.bet + amount))]
      have hcond : ((bank || playerTurn.bet + amount == available)
          && (playerTurn.bet + amount != available)) = true := by
        simp [hbank, bne_iff_ne, hne]
      rw [if_pos hcond]
    · intro heq t ht htid htstate
      have hbe : (playerTurn.bet + amount == available) = true := by simp [heq]
      simp only [applyBetS, hround, hfind, hlock, hwin, hupd]
      rw [if_neg hamt', if_neg hwallet', if_neg (by omega : ¬ (available ≤ 0)),
        if_neg (by omega : ¬ (available < playerTurn.bet + amount))]
      rw [if_neg (by simp [heq] : ¬ (((bank || playerTurn.bet + amount == available) && (playerTurn.bet + amount != available)) = true))]
      rw [if_pos (by simp [hbe] : ((bank || playerTurn.bet + amount == available) = true))]
      have hpb : processBankLock { updated with bankLock := some ⟨playerId, BankStage.player, available, playerIndex⟩, turns := updated.turns.map (fun u => if u.player.id == playerId then { u with bankRequest := true } else u) } store.room = .ok ({ updated with bankLock := some ⟨playerId, BankStage.player, available, playerIndex⟩, turns := updated.turns.map (fun u => if u.player.id == playerId then { u with bankRequest := true } else u) }, store.room) := by
        simp only [processBankLock, ht, htid, htstate]
        simp [htid, htstate]
      rw [hpb]

def c6WTurn : Turn := ⟨playerOne, .pending, [cardFive], 0, false, none, none⟩

def c6WRoom : RoomState :=
  ⟨100, 10, [("bk", 10), ("p1", 100)], [playerOne, bankerP], [], 0, [], none⟩

def c6WRound : Round :=
  ⟨[cardNine], [c6WTurn, ⟨bankerP, .pending, [cardTen], 0, false, none, none⟩], .playing, none⟩

def c6WStore : Store := ⟨c6WRoom, some c6WRound⟩

theorem c6_witness :
    ((10:Int) ≤ 0 →
      applyBetS c6WStore "p1" 10 false = .error ("bank_empty", c6WStore)) ∧
    ((0:Int) < 10 → (10:Int) < c6WTurn.bet + 10 →
      applyBetS c6WStore "p1" 10 false
        = .error ("bank_limit:" ++ toString (10:Int), c6WStore)) ∧
    (∀ updated, (0:Int) < 10 → c6WTurn.bet + 10 ≤ 10 →
      handleBet c6WRound "p1" 10 = .ok updated →
      (false = true → c6WTurn.bet + 10 ≠ 10 →
        applyBetS c6WStore "p1" 10 false = .error ("invalid_bank_amount", c6WStore)) ∧
      (c6WTurn.bet + 10 = 10 →
        ∀ t, (updated.turns.map (fun u => if u.player.id == "p1" then { u with bankRequest := true } else u))[0]? = some t →
          t.player.id = "p1" → t.state = .pending →
          applyBetS c6WStore "p1" 10 false =
            .ok ⟨c6WStore.room, some { updated with bankLock := some ⟨"p1", .player, 10, 0⟩, turns := updated.turns.map (fun u => if u.player.id == "p1" then { u with bankRequest := true } else u) }⟩)) :=
  c6_apply_bet_amended c6WStore c6WRound c6WTurn "p1" 10 false 10 0 (by decide) (by decide)
    (by decide) (by decide) (by decide) (by decide)

/-- C7 (amended): for a bank-lock interim settlement with at least one
involved seat, a defined end state and a resolved banker turn, the
settlement balances are committed to the room first (`room1`); then if
the banker's wallet is zero or negative the lock's stage becomes
`decision` and the lock is retained, while if the wallet is strictly
positive and the banker's seat is found, the round resumes with a fresh
single banker card, cleared lock and pending banker only when the deck
is non-empty — an empty deck instead raises `deck_empty` carrying the
already-settled room, so the claim's positive-wallet clause holds only
under a non-empty deck. -/
theorem c7_settle_amended (round : Round) (room : RoomState) (lock : BankLock)
    (bankerTurn : Turn) (resolved : List Turn) (rb : Turn) (room1 : RoomState)
    (turns1 : List Turn)
    (hinv : ((round.turns.enum.filter (fun p => p.2.player.type != .admin && p.1 ≤ lock.throughIndex)).isEmpty) = false)
    (hend : calculateEndState ((round.turns.enum.filter (fun p => p.2.player.type != .admin && p.1 ≤ lock.throughIndex)).map (·.2) ++ [bankerTurn]) = some resolved)
    (hadm : resolved.find? (fun t => t.player.type == .admin) = some rb)
    (hroom1 : settleApplyRoom room resolved bankerTurn.player.id = room1)
    (hturns1 : settleTurns round.turns (resolved.foldl (fun m t => mapSet m t.player.id t) []) bankerTurn.player.id lock = turns1) :
    (wlookup room1.wallets bankerTurn.player.id ≤ 0 →
      settleBankOutcome round room lock bankerTurn
        = .ok ({ round with turns := turns1, bankLock := some { lock with stage := .decision } }, room1)) ∧
    (0 < wlookup room1.wallets bankerTurn.player.id →
      ∀ bankerIndex, turns1.findIdx? (fun t => t.player.id == bankerTurn.player.id) = some bankerIndex →
      (round.deck = [] →
        settleBankOutcome round room lock bankerTurn = .error ("deck_empty", room1)) ∧
      (∀ nextCard nextDeck, round.deck = nextCard :: nextDeck →
        settleBankOutcome round room lock bankerTurn
          = .ok ({ round with turns := turns1.enum.map (fun p => if p.1 == bankerIndex then { p.2 with cards := [nextCard], state := .pending, bet := 0, bankRequest := false, settledNet := none } else p.2), deck := nextDeck, bankLock := none }, room1))) := by
  refine ⟨?_, ?_⟩
  · intro h1
    simp only [settleBankOutcome, hinv, Bool.false_eq_true, if_false, hend, hadm, hroom1,
      hturns1]
    rw [if_pos h1]
  · intro h0 bankerIndex hbi
    refine ⟨?_, ?_⟩
    · intro hdeck
      simp only [settleBankOutcome, hinv, Bool.false_eq_true, if_false, hend, hadm, hroom1,
        hturns1, hbi, hdeck]
      rw [if_neg (by omega : ¬ (wlookup room1.wallets bankerTurn.player.id ≤ 0))]
    · intro nextCard nextDeck hdeck
      simp only [settleBankOutcome, hinv, Bool.false_eq_true, if_false, hend, hadm, hroom1,
        hturns1, hbi, hdeck]
      rw [if_neg (by omega : ¬ (wlookup room1.wallets bankerTurn.player.id ≤ 0))]

def c7WPlayerTurn : Turn := ⟨playerOne, .standby, [cardTen], 10, false, none, none⟩

def c7WBankerTurn : Turn := ⟨bankerP, .standby, [cardNine], 0, false, none, none⟩

def c7WLock : BankLock := ⟨"p1", .banker, 20, 0⟩

def c7WRound : Round := ⟨[cardFive], [c7WPlayerTurn, c7WBankerTurn], .playing, some c7WLock⟩

def c7WRoom : RoomState :=
  ⟨100, 30, [("bk", 30), ("p1", 100)], [playerOne, bankerP], [], 0, [], none⟩

def c7WResolved : List Turn :=
  (calculateEndState ((c7WRound.turns.enum.filter (fun p => p.2.player.type != .admin && p.1 ≤ c7WLock.throughIndex)).map (·.2) ++ [c7WBankerTurn])).getD []

def c7WRb : Turn := (c7WResolved.find? (fun t => t.player.type == .admin)).getD c7WBankerTurn

def c7WRoom1 : RoomState := settleApplyRoom c7WRoom c7WResolved "bk"

def c7WTurns1 : List Turn :=
  settleTurns c7WRound.turns (c7WResolved.foldl (fun m t => mapSet m t.player.id t) []) "bk" c7WLock

theorem c7_witness :
    (wlookup c7WRoom1.wallets c7WBankerTurn.player.id ≤ 0 →
      settleBankOutcome c7WRound c7WRoom c7WLock c7WBankerTurn
        = .ok ({ c7WRound with turns := c7WTurns1, bankLock := some { c7WLock with stage := .decision } }, c7WRoom1)) ∧
    (0 < wlookup c7WRoom1.wallets c7WBankerTurn.player.id →
      ∀ bankerIndex, c7WTurns1.findIdx? (fun t => t.player.id == c7WBankerTurn.player.id) = some bankerIndex →
      (c7WRound.deck = [] →
        settleBankOutcome c7WRound c7WRoom c7WLock c7WBankerTurn
          = .error ("deck_empty", c7WRoom1)) ∧
      (∀ nextCard nextDeck, c7WRound.deck = nextCard :: nextDeck →
        settleBankOutcome c7WRound c7WRoom c7WLock c7WBankerTurn
          = .ok ({ c7WRound with turns := c7WTurns1.enum.map (fun p => if p.1 == bankerIndex then { p.2 with cards := [nextCard], state := .pending, bet := 0, bankRequest := false, settledNet := none } else p.2), deck := nextDeck, bankLock := none }, c7WRoom1))) :=
  c7_settle_amended c7WRound c7WRoom c7WLock c7WBankerTurn c7WResolved c7WRb c7WRoom1
    c7WTurns1 (by decide) (by decide) (by decide) (by decide) (by decide)

theorem advanceState_bankLock {st r : Round} (h : advanceState st = .ok r) :
    r.bankLock = st.bankLock := by
  unfold advanceState at h
  split at h
  · split at h
    · exact Except.noConfusion h
    · obtain rfl := Except.ok.inj h
      rfl
  · split at h
    · obtain rfl := Except.ok.inj h
      rfl
    · split at h
      · exact Except.noConfusion h
      · obtain rfl := Except.ok.inj h
        rfl
  · obtain rfl := Except.ok.inj h
    rfl

theorem handleBet_bankLock {state : Round} {playerId : String} {amount : Int} {u : Round}
    (h : handleBet state playerId amount = .ok u) : u.bankLock = state.bankLock := by
  unfold handleBet at h
  split at h
  · exact Except.noConfusion h
  · split at h
    · exact Except.noConfusion h
    · split at h
      · exact Except.noConfusion h
      · split at h
        · exact Except.noConfusion h
        · split at h
          · exact Except.noConfusion h
          · try simp only [] at h
            simpa using advanceState_bankLock h

theorem handleStand_bankLock {state : Round} {playerId : String} {u : Round}
    (h : handleStand state playerId = .ok u) : u.bankLock = state.bankLock := by
  unfold handleStand at h
  split at h
  · exact Except.noConfusion h
  · try simp only [] at h
    simpa using advanceState_bankLock h

theorem handleSkip_bankLock {state : Round} {playerId : String} {u : Round}
    (h : handleSkip state playerId = .ok u) : u.bankLock = state.bankLock := by
  unfold handleSkip at h
  split at h
  · exact Except.noConfusion h
  · simpa using advanceState_bankLock h

theorem handleHit_bankLock {state : Round} {playerId : String} {elev : Bool} {u : Round}
    (h : handleHit state playerId elev = .ok u) : u.bankLock = state.bankLock := by
  unfold handleHit at h
  split at h
  · exact Except.noConfusion h
  · split at h
    · exact Except.noConfusion h
    · split at h
      · exact Except.noConfusion h
      · split at h
        · exact Except.noConfusion h
        · try simp only [] at h
          split at h
          · exact Except.noConfusion h
          · split at h
            · exact Except.noConfusion h
            · split at h
              · split at h
                · exact Except.noConfusion h
                · split at h
                  · simpa using advanceState_bankLock h
                  · split at h
                    · simpa using advanceState_bankLock h
                    · simpa using advanceState_bankLock h
              · simpa using advanceState_bankLock h

theorem processBankLock_ok_room {round : Round} {room : RoomState} {r1 : Round}
    {rm1 : RoomState}
    (hnb : ∀ lk, round.bankLock = some lk → lk.stage ≠ BankStage.banker)
    (hpe : processBankLock round room = .ok (r1, rm1)) : rm1 = room := by
  unfold processBankLock at hpe
  split at hpe
  · injection Except.ok.inj hpe with h1 h2
    exact h2.symm
  · rename_i lock hl
    have hs := hnb lock hl
    split at hpe
    · injection Except.ok.inj hpe with h1 h2
      exact h2.symm
    · split at hpe
      · injection Except.ok.inj hpe with h1 h2
        exact h2.symm
      · split at hpe
        · split at hpe
          · injection Except.ok.inj hpe with h1 h2
            exact h2.symm
          · split at hpe
            · injection Except.ok.inj hpe with h1 h2
              exact h2.symm
            · injection Except.ok.inj hpe with h1 h2
              exact h2.symm
        · split at hpe
          · rename_i hbk
            exact absurd (by simpa using hbk) hs
          · injection Except.ok.inj hpe with h1 h2
            exact h2.symm

theorem wset_nonneg {w : List (String × Int)} {k : String} {v : Int}
    (hw : walletsNonneg w) (hv : 0 ≤ v) : walletsNonneg (wset w k v) := by
  intro p hp
  unfold wset at hp
  split at hp
  · obtain ⟨q, hq, rfl⟩ := List.mem_map.mp hp
    by_cases hqk : (q.1 == k) = true
    · rw [if_pos hqk]
      exact hv
    · rw [if_neg hqk]
      exact hw q hq
  · rcases List.mem_append.mp hp with hq | hq
    · exact hw p hq
    · obtain rfl := List.mem_singleton.mp hq
      exact hv

theorem wlookup_nonneg {w : List (String × Int)} (hw : walletsNonneg w) (k : String) :
    0 ≤ wlookup w k := by
  unfold wlookup lookupWallet?
  cases hf : w.find? (fun p => p.1 == k) with
  | none => simp
  | some q =>
    have hq := List.mem_of_find?_eq_some hf
    simpa using hw q hq

/-- C1 (amended): wallet non-negativity is preserved by the operations
that guard their own wallet mutation — `adjustPlayerWallet` (its
`insufficient_bank` check bounds the new value), `approveBuyIn` when
every pending request's amount is non-negative, and `joinRoom` when the
room's buy-in is non-negative — and the engine moves (bet, hit, stand,
skip) leave the wallets literally unchanged as long as the active round
has no bank lock.  The original claim fails for the settling paths:
`adjustPlayerWallet` can strip a wallet below a live stake and the
subsequent settlement (`finalizeRound` / `settleBankOutcome`) applies
the balances unchecked, driving the wallet negative. -/
theorem c1_wallet_guard_amended (store : Store)
    (hpos : walletsNonneg store.room.wallets) :
    (∀ adminId targetPlayerId amount store',
      adjustPlayerWalletS store adminId targetPlayerId amount = .ok store' →
      walletsNonneg store'.room.wallets) ∧
    (∀ adminId targetPlayerId store',
      (∀ r ∈ store.room.buyInRequests, 0 ≤ r.amount) →
      approveBuyInS store adminId targetPlayerId = .ok store' →
      walletsNonneg store'.room.wallets) ∧
    (∀ newPlayerId password store',
      0 ≤ store.room.buyIn →
      joinRoomS store newPlayerId password = .ok store' →
      walletsNonneg store'.room.wallets) ∧
    (∀ round, store.round = some round → round.bankLock = none →
      (∀ playerId elev store', applyHitS store playerId elev = .ok store' →
        store'.room.wallets = store.room.wallets) ∧
      (∀ playerId store', applyStandS store playerId = .ok store' →
        store'.room.wallets = store.room.wallets) ∧
      (∀ playerId store', applySkipS store playerId = .ok store' →
        store'.room.wallets = store.room.wallets) ∧
      (∀ playerId amount bank store', applyBetS store playerId amount bank = .ok store' →
        store'.room.wallets = store.room.wallets)) := by
  refine ⟨?_, ?_, ?_, ?_⟩
  · intro adminId targetPlayerId amount store' h
    unfold adjustPlayerWalletS at h
    split at h
    · exact Except.noConfusion h
    · split at h
      · exact Except.noConfusion h
      · split at h
        · exact Except.noConfusion h
        · rename_i current hcur
          split at h
          · exact Except.noConfusion h
          · rename_i hlt
            obtain rfl := Except.ok.inj h
            exact wset_nonneg hpos (by omega)
  · intro adminId targetPlayerId store' hreq h
    unfold approveBuyInS at h
    split at h
    · exact Except.noConfusion h
    · split at h
      · exact Except.noConfusion h
      · rename_i request hfind
        obtain rfl := Except.ok.inj h
        have hr : request ∈ store.room.buyInRequests := List.mem_of_find?_eq_some hfind
        have hra := hreq request hr
        have hwl := wlookup_nonneg hpos targetPlayerId
        exact wset_nonneg hpos (by omega)
  · intro newPlayerId password store' hbuy h
    unfold joinRoomS at h
    split at h
    · split at h
      · exact Except.noConfusion h
      · obtain rfl := Except.ok.inj h
        exact wset_nonneg hpos hbuy
    · obtain rfl := Except.ok.inj h
      exact wset_nonneg hpos hbuy
  · intro round hround hnl
    refine ⟨?_, ?_, ?_, ?_⟩
    · intro playerId elev store' h
      have hle : hitLockError round playerId = none := by simp [hitLockError, hnl]
      simp only [applyHitS, hround, hle] at h
      split at h
      · exact Except.noConfusion h
      · rename_i u hh
        split at h
        · exact Except.noConfusion h
        · rename_i round1 room1 hpe
          obtain rfl := Except.ok.inj h
          have hub : u.bankLock = none := (handleHit_bankLock hh).trans hnl
          have hrm : room1 = store.room := by
            refine processBankLock_ok_room ?_ hpe
            intro lk hc
            rw [hub] at hc
            exact Option.noConfusion hc
          rw [hrm]
    · intro playerId store' h
      have hle : hitLockError round playerId = none := by simp [hitLockError, hnl]
      simp only [applyStandS, hround, hle] at h
      split at h
      · exact Except.noConfusion h
      · rename_i u hh
        split at h
        · exact Except.noConfusion h
        · rename_i round1 room1 hpe
          obtain rfl := Except.ok.inj h
          have hub : u.bankLock = none := (handleStand_bankLock hh).trans hnl
          have hrm : room1 = store.room := by
            refine processBankLock_ok_room ?_ hpe
            intro lk hc
            rw [hub] at hc
            exact Option.noConfusion hc
          rw [hrm]
    · intro playerId store' h
      have hle : skipLockError round playerId = none := by simp [skipLockError, hnl]
      simp only [applySkipS, hround, hle] at h
      split at h
      · exact Except.noConfusion h
      · rename_i u hh
        split at h
        · exact Except.noConfusion h
        · rename_i round1 room1 hpe
          obtain rfl := Except.ok.inj h
          have hub : u.bankLock = none := (handleSkip_bankLock hh).trans hnl
          have hrm : room1 = store.room := by
            refine processBankLock_ok_room ?_ hpe
            intro lk hc
            rw [hub] at hc
            exact Option.noConfusion hc
          rw [hrm]
    · intro playerId amount bank store' h
      simp only [applyBetS, hround] at h
      split at h
      · exact Except.noConfusion h
      · split at h
        · exact Except.noConfusion h
        · rename_i playerTurn hfind
          split at h
          · exact Except.noConfusion h
          · try simp only [] at h
            split at h
            · exact Except.noConfusion h
            · split at h
              · exact Except.noConfusion h
              · rename_i available playerIndex hwin
                split at h
                · exact Except.noConfusion h
                · split at h
                  · exact Except.noConfusion h
                  · split at h
                    · exact Except.noConfusion h
                    · rename_i updated hupd
                      try simp only [] at h
                      split at h
                      · exact Except.noConfusion h
                      · simp only [hnl] at h
                        have hub : updated.bankLock = none :=
                          (handleBet_bankLock hupd).trans hnl
                        by_cases hsb : (bank || (playerTurn.bet + amount == available)) = true
                        · rw [if_pos hsb] at h
                          split at h
                          · exact Except.noConfusion h
                          · rename_i round1 room1 hpe
                            obtain rfl := Except.ok.inj h
                            have hrm : room1 = store.room := by
                              refine processBankLock_ok_room ?_ hpe
                              intro lk hc
                              injection hc with hlk
                              subst hlk
                              simp
                            rw [hrm]
                        · rw [if_neg hsb] at h
                          split at h
                          · exact Except.noConfusion h
                          · rename_i round1 room1 hpe
                            obtain rfl := Except.ok.inj h
                            have hrm : room1 = store.room := by
                              refine processBankLock_ok_room ?_ hpe
                              intro lk hc
                              rw [hub] at hc
                              exact Option.noConfusion hc
                            rw [hrm]

def c1WStore : Store := ⟨c6WRoom, some c6WRound⟩

def c1WAdjusted : Store :=
  (adjustPlayerWalletS c1WStore "bk" "p1" (-30)).toOption.getD c1WStore

def c1WHit : Store := (applyHitS c1WStore "p1" false).toOption.getD c1WStore

theorem c1_witness :
    walletsNonneg c1WStore.room.wallets ∧
    walletsNonneg c1WAdjusted.room.wallets ∧
    c1WHit.room.wallets = c1WStore.room.wallets :=
  ⟨by decide,
   (c1_wallet_guard_amended c1WStore (by decide)).1 "bk" "p1" (-30) c1WAdjusted (by decide),
   ((c1_wallet_guard_amended c1WStore (by decide)).2.2.2 c6WRound (by decide) (by decide)).1
     "p1" false c1WHit (by decide)⟩
